import Mathlib

/-! asm58: cached register update and fan-divisor auto-ranging

A shallow embedding of `asm58.c` (the Asus Mozart-2 hardware-monitoring
driver): the conversion macros, the cached client data, the refresh burst of
`asm58_update_device` and the divisor controller inside `show_fan`.

Conventions of the embedding:
* a `u8` field is a `Nat`; every store of a C `int` into a `u8` goes through
  `u8`, the reduction modulo 256;
* a C `int` is an `Int` (no value of the driver leaves the 32-bit range);
* the I2C transport is an arbitrary state machine `Bus σ`; a transaction returns
  a byte `0..255` or a negative errno, as `i2c_smbus_read_byte_data` does;
* every transaction is appended to a log, so that the number and order of bus
  operations can be stated;
* the volatile tick counter `jiffies` is passed in once per read in the source:
  `asm58_update_device` takes the value seen by the staleness test and the
  value seen by the time stamp after the burst;
* an execution that indexes `asm58_fan_min_lim` out of bounds is undefined:
  `show_fan` returns `none` there.
-/

set_option autoImplicit false

namespace Asm58

/-! ## Registers -/

/-- Macro `ASM58_REG_TEMP(i) ((i) ? 0x13 : 0x27)` -/
def ASM58_REG_TEMP (i : Nat) : Nat := if i ≠ 0 then 0x13 else 0x27

/-- Macro `ASM58_REG_FAN(i) (0x28 + (i))` -/
def ASM58_REG_FAN (i : Nat) : Nat := 0x28 + i

/-- Macro `ASM58_REG_FANDIV 0xA1` -/
def ASM58_REG_FANDIV : Nat := 0xA1

/-- Macro `ASM58_REG_IN(i) (!(i) ? 0x20 : 0x20 + (i) + 1)` -/
def ASM58_REG_IN (i : Nat) : Nat := if i = 0 then 0x20 else 0x20 + i + 1

/-! ## Conversions -/

/-- Macro `ASM58_FANDIV_FROM_REG(r) (1 << (r))` -/
def ASM58_FANDIV_FROM_REG (r : Nat) : Int := ((1 <<< r : Nat) : Int)

/-- Macro `ASM58_RPM_FROM_REG(f, r)
  (((f) == 255 || (f) == 0) ? 0 : 1350000 / ((f) * (r)))`; `f` is the `u8`
count promoted to `int`, `r` the `int` divisor.  C division truncates towards
zero, which is `Int.tdiv`. -/
def ASM58_RPM_FROM_REG (f : Nat) (r : Int) : Int :=
  if f = 255 ∨ f = 0 then 0 else Int.tdiv 1350000 ((f : Int) * r)

/-- Macro `ASM58_TEMP_FROM_REG(t) (((t) & 0x80 ? (t) - 0x100 : (t)) * 1000)`;
`t` is the `u8` reading promoted to `int`. -/
def ASM58_TEMP_FROM_REG (t : Nat) : Int :=
  (if t &&& 0x80 ≠ 0 then (t : Int) - 0x100 else (t : Int)) * 1000

/-- Macro `ASM58_IN_FROM_REG(i) ((i) * 16)` -/
def ASM58_IN_FROM_REG (i : Nat) : Int := (i : Int) * 16

/-- Table `static int asm58_fan_min_lim[] = { 5314, 2657, 1328, 664 };` -/
def asm58_fan_min_lim : List Int := [5314, 2657, 1328, 664]

/-- Conversion of a C `int` to `u8` (assignment to a `u8` object). -/
def u8 (x : Int) : Nat := (x % 256).toNat

/-! ## The divisor decision of `show_fan` -/

/-- The `if / else if` of `show_fan` that sets `div_mod`, given the computed
`fan_rpm`, the table entry `lim = asm58_fan_min_lim[data->fan_div[n]]` and the
divisor exponent `d = data->fan_div[n]`. -/
def div_mod_of (fan_rpm lim : Int) (d : Nat) : Int :=
  if fan_rpm < Int.tdiv (5 * lim) 4 ∧ d < 3 then 1
  else if fan_rpm > 3 * lim ∧ d > 0 then -1
  else 0

/-- The expression `((data->fan_div[0] & 0x03) << 4) | ((data->fan_div[1] & 0x03) << 6)`
of `show_fan`, converted to the `u8 value` parameter of `asm58_write_byte`. -/
def fandiv_pack (d0 d1 : Nat) : Nat :=
  (((d0 &&& 0x03) <<< 4) ||| ((d1 &&& 0x03) <<< 6)) % 256

/-- The expression `(fandiv >> 4) & 0x03` of `asm58_update_device`, stored into
the `u8` field `fan_div[0]`; `fandiv` is the `int` returned by the bus read. -/
def fandiv_unpack0 (fandiv : Int) : Nat := u8 (Int.land (Int.shiftRight fandiv 4) 0x03)

/-- The expression `fandiv >> 6` of `asm58_update_device`, stored into the `u8`
field `fan_div[1]`; the shift of a negative `int` is arithmetic. -/
def fandiv_unpack1 (fandiv : Int) : Nat := u8 (Int.shiftRight fandiv 6)

/-! ## Bus transport -/

/-- The SMBus transport behind `i2c_smbus_read_byte_data` and
`i2c_smbus_write_byte_data`: a device of state `σ`.  A read returns the byte
`0..255` or a negative errno; a write returns `0` or a negative errno. -/
structure Bus (σ : Type) where
  /-- Answer of a byte read of register `reg`. -/
  read : σ → Nat → Int × σ
  /-- Answer of a byte write of `value` to register `reg`. -/
  write : σ → Nat → Nat → Int × σ

/-- One bus transaction, as it is logged. -/
inductive BusOp where
  | rd (reg : Nat)
  | wr (reg : Nat) (value : Nat)
  deriving DecidableEq, Repr

/-- The `struct i2c_client`: the device behind the bus, with the log of the
transactions issued so far (oldest first). -/
structure Client (σ : Type) where
  /-- State of the chip and of the transport. -/
  dev : σ
  /-- Transactions issued so far. -/
  log : List BusOp

/-- Function `asm58_read_byte`: one `i2c_smbus_read_byte_data` transaction. -/
def asm58_read_byte {σ : Type} (bus : Bus σ) (client : Client σ) (reg : Nat) :
    Int × Client σ :=
  ((bus.read client.dev reg).1,
    { dev := (bus.read client.dev reg).2, log := client.log ++ [BusOp.rd reg] })

/-- Function `asm58_write_byte`: one `i2c_smbus_write_byte_data` transaction. -/
def asm58_write_byte {σ : Type} (bus : Bus σ) (client : Client σ) (reg value : Nat) :
    Int × Client σ :=
  ((bus.write client.dev reg value).1,
    { dev := (bus.write client.dev reg value).2,
      log := client.log ++ [BusOp.wr reg value] })

/-! ## Client data -/

/-- The `struct asm58_data`, without `hwmon_dev` and `update_lock`.  The field
`in` of the source is `in_` here. -/
structure asm58_data where
  /-- Field `char valid`: zero until the following fields are valid. -/
  valid : Bool
  /-- Field `unsigned long last_updated`, in jiffies. -/
  last_updated : Nat
  /-- Field `u8 temp[2]`. -/
  temp : Fin 2 → Nat
  /-- Field `u8 fan[2]`. -/
  fan : Fin 2 → Nat
  /-- Field `u8 fan_div[2]`. -/
  fan_div : Fin 2 → Nat
  /-- Field `u8 in[4]`. -/
  in_ : Fin 4 → Nat

/-- The client data as `asm58_probe` leaves it: `kzalloc`-ed, `valid = 0` and
the default values `0` for every register field. -/
def asm58_probe : asm58_data :=
  { valid := false, last_updated := 0, temp := fun _ => 0, fan := fun _ => 0,
    fan_div := fun _ => 0, in_ := fun _ => 0 }

/-! ## Time -/

/-- Kernel parameters the driver is compiled against. -/
structure Kconfig where
  /-- Ticks per second. -/
  HZ : Nat
  /-- Width of `unsigned long`, the type of `jiffies`. -/
  BITS_PER_LONG : Nat

/-- The kernel macro `time_after(a, b)` of `linux/jiffies.h`,
`((long)((b) - (a)) < 0)` on `unsigned long` operands: the difference `b - a`
modulo `2 ^ bits` has its sign bit set. -/
def time_after (bits a b : Nat) : Bool :=
  decide (2 ^ (bits - 1) ≤ (b % 2 ^ bits + 2 ^ bits - a % 2 ^ bits) % 2 ^ bits)

/-- The staleness test `!data->valid || time_after(jiffies, data->last_updated + HZ * 2)`
of `asm58_update_device`; the sum wraps in `unsigned long`. -/
def needs_update (k : Kconfig) (jiffies : Nat) (data : asm58_data) : Bool :=
  !data.valid ||
    time_after k.BITS_PER_LONG jiffies ((data.last_updated + k.HZ * 2) % 2 ^ k.BITS_PER_LONG)

/-! ## The refresh burst -/

/-- Body of `for (i = 0; i < 4; i++) data->in[i] = asm58_read_byte(client, ASM58_REG_IN(i));` -/
def read_in_step {σ : Type} (bus : Bus σ) (acc : Client σ × asm58_data) (i : Fin 4) :
    Client σ × asm58_data :=
  ((asm58_read_byte bus acc.1 (ASM58_REG_IN i.val)).2,
    { acc.2 with
      in_ := Function.update acc.2.in_ i (u8 (asm58_read_byte bus acc.1 (ASM58_REG_IN i.val)).1) })

/-- The three statements that read and unpack the fan-divisor register. -/
def read_fandiv_step {σ : Type} (bus : Bus σ) (acc : Client σ × asm58_data) :
    Client σ × asm58_data :=
  ((asm58_read_byte bus acc.1 ASM58_REG_FANDIV).2,
    { acc.2 with
      fan_div :=
        Function.update
          (Function.update acc.2.fan_div 0
            (fandiv_unpack0 (asm58_read_byte bus acc.1 ASM58_REG_FANDIV).1))
          1 (fandiv_unpack1 (asm58_read_byte bus acc.1 ASM58_REG_FANDIV).1) })

/-- Body of the loop `for (i = 0; i < 2; i++)` that reads `fan[i]`, then
`temp[i]`. -/
def read_fan_temp_step {σ : Type} (bus : Bus σ) (acc : Client σ × asm58_data) (i : Fin 2) :
    Client σ × asm58_data :=
  ((asm58_read_byte bus (asm58_read_byte bus acc.1 (ASM58_REG_FAN i.val)).2
      (ASM58_REG_TEMP i.val)).2,
    { acc.2 with
      fan := Function.update acc.2.fan i (u8 (asm58_read_byte bus acc.1 (ASM58_REG_FAN i.val)).1)
      temp := Function.update acc.2.temp i
        (u8 (asm58_read_byte bus (asm58_read_byte bus acc.1 (ASM58_REG_FAN i.val)).2
          (ASM58_REG_TEMP i.val)).1) })

/-- The block of `asm58_update_device` guarded by the staleness test: the
refresh burst, then `data->last_updated = jiffies; data->valid = 1;`.  The
parameter `jiffies` is the tick counter as it is read by that assignment, after
the nine bus transactions. -/
def refresh_burst {σ : Type} (bus : Bus σ) (jiffies : Nat) (client : Client σ)
    (data : asm58_data) : Client σ × asm58_data :=
  let a := ([0, 1, 2, 3] : List (Fin 4)).foldl (read_in_step bus) (client, data)
  let b := read_fandiv_step bus a
  let c := ([0, 1] : List (Fin 2)).foldl (read_fan_temp_step bus) b
  (c.1, { c.2 with last_updated := jiffies, valid := true })

/-- Function `asm58_update_device`.  The source reads the volatile tick
counter twice: `jiffies` is the value read by the staleness test, `stamp` the
value read again by `data->last_updated = jiffies` once the burst is over (the
nine bus transactions in between may sleep, so `stamp` can be later than
`jiffies`; it is not read when no burst runs).  The returned `data` pointer is
the updated client data. -/
def asm58_update_device {σ : Type} (k : Kconfig) (bus : Bus σ) (jiffies stamp : Nat)
    (client : Client σ) (data : asm58_data) : Client σ × asm58_data :=
  if needs_update k jiffies data then refresh_burst bus stamp client data
  else (client, data)

/-! ## Reading a fan -/

/-- The part of `show_fan` after the call of `asm58_update_device`: the RPM
conversion, the divisor decision, the transition under `update_lock` and the
value printed into `buf`.  `none` when `asm58_fan_min_lim` is indexed out of
bounds. -/
def show_fan_body {σ : Type} (bus : Bus σ) (n : Fin 2) (client : Client σ)
    (data : asm58_data) : Option (Int × Client σ × asm58_data) :=
  match asm58_fan_min_lim[data.fan_div n]? with
  | none => none
  | some lim =>
    let fan_rpm := ASM58_RPM_FROM_REG (data.fan n) (ASM58_FANDIV_FROM_REG (data.fan_div n))
    let div_mod := div_mod_of fan_rpm lim (data.fan_div n)
    if div_mod ≠ 0 then
      let data1 : asm58_data :=
        { data with
          fan_div := Function.update data.fan_div n (u8 ((data.fan_div n : Int) + div_mod))
          valid := false }
      some (fan_rpm,
        (asm58_write_byte bus client ASM58_REG_FANDIV
          (fandiv_pack (data1.fan_div 0) (data1.fan_div 1))).2,
        data1)
    else some (fan_rpm, client, data)

/-- Function `show_fan` for the attribute of index `n` (`fan1_input` is `0`,
`fan2_input` is `1`): the printed RPM, the client and the client data after
the call.  The ticks `jiffies` and `stamp` are those of `asm58_update_device`. -/
def show_fan {σ : Type} (k : Kconfig) (bus : Bus σ) (jiffies stamp : Nat) (n : Fin 2)
    (client : Client σ) (data : asm58_data) : Option (Int × Client σ × asm58_data) :=
  show_fan_body bus n (asm58_update_device k bus jiffies stamp client data).1
    (asm58_update_device k bus jiffies stamp client data).2

/-- Function `show_temp` for the attribute of index `n`: the printed value. -/
def show_temp {σ : Type} (k : Kconfig) (bus : Bus σ) (jiffies stamp : Nat) (n : Fin 2)
    (client : Client σ) (data : asm58_data) : Int × Client σ × asm58_data :=
  (ASM58_TEMP_FROM_REG ((asm58_update_device k bus jiffies stamp client data).2.temp n),
    asm58_update_device k bus jiffies stamp client data)


/-- The client data after the two assignments of a divisor transition,
`data->fan_div[n] = d` and `data->valid = 0`. -/
def stepped (data : asm58_data) (n : Fin 2) (d : Nat) : asm58_data :=
  { data with fan_div := Function.update data.fan_div n d, valid := false }

/-- The values returned by reading the registers `regs` one after the other,
starting from the device state `dev`. -/
def bus_answers {σ : Type} (bus : Bus σ) : σ → List Nat → List Int
  | _, [] => []
  | dev, reg :: regs => (bus.read dev reg).1 :: bus_answers bus (bus.read dev reg).2 regs

/-- The registers of one refresh burst, in the order they are read. -/
def burst_regs : List Nat := [0x20, 0x22, 0x23, 0x24, 0xA1, 0x28, 0x27, 0x29, 0x13]

/-! ## Sample transports and states -/

/-- A chip modelled as a register file: a read returns the content of the
register, a write stores the byte and succeeds. -/
def regfile_bus : Bus (Nat → Int) where
  read := fun regs reg => (regs reg, regs)
  write := fun regs reg value => (0, Function.update regs reg (value : Int))

/-- A transport on which every transaction fails with `-EIO` (`-5`). -/
def eio_bus : Bus Unit where
  read := fun _ _ => (-5, ())
  write := fun _ _ _ => (-5, ())

/-- A 64-bit kernel with `HZ = 250`: the two-second window is 500 ticks. -/
def sample_kconfig : Kconfig := { HZ := 250, BITS_PER_LONG := 64 }

/-- The nine register reads of one refresh burst, in the order they are
issued. -/
def burst_reads : List BusOp :=
  [BusOp.rd 0x20, BusOp.rd 0x22, BusOp.rd 0x23, BusOp.rd 0x24, BusOp.rd 0xA1,
    BusOp.rd 0x28, BusOp.rd 0x27, BusOp.rd 0x29, BusOp.rd 0x13]

/-- A fresh client: the given device, no transaction issued yet. -/
def new_client {σ : Type} (dev : σ) : Client σ := { dev := dev, log := [] }

/-- A cached snapshot that is valid, stamped at tick 1000, with fan count
`f` under divisor exponent `d` on both channels. -/
def cached (f d : Nat) : asm58_data :=
  { valid := true, last_updated := 1000, temp := fun _ => 0, fan := fun _ => f,
    fan_div := fun _ => d, in_ := fun _ => 0 }

/-! ## Repeated reads -/

/-- The divisor update of `show_fan` for a given `fan_rpm`: the table lookup,
the `if / else if` on `div_mod` and `data->fan_div[n] += div_mod`.  `none` when
the table index `d` is out of bounds. -/
def next_fan_div (fan_rpm : Int) (d : Nat) : Option Nat :=
  match asm58_fan_min_lim[d]? with
  | none => none
  | some lim =>
    if div_mod_of fan_rpm lim d ≠ 0 then some (u8 ((d : Int) + div_mod_of fan_rpm lim d))
    else some d

/-- The divisor after `steps` applications of the update of `show_fan`, the
RPM being held at `fan_rpm`. -/
def fan_div_after : Nat → Int → Nat → Option Nat
  | 0, _, d => some d
  | steps + 1, fan_rpm, d => (next_fan_div fan_rpm d).bind (fan_div_after steps fan_rpm)

/-- Successive calls of `show_fan` on channel `n`, one per entry of `ticks`
(the two values of the tick counter read by each call, at the staleness test
and at the time stamp): the client and the client data after the last call. -/
def fan_reads {σ : Type} (k : Kconfig) (bus : Bus σ) (n : Fin 2) :
    List (Nat × Nat) → Client σ → asm58_data → Option (Client σ × asm58_data)
  | [], client, data => some (client, data)
  | t :: ticks, client, data =>
    match show_fan k bus t.1 t.2 n client data with
    | none => none
    | some r => fan_reads k bus n ticks r.2.1 r.2.2

/-- The transport `bus` with the status returned by every write replaced by
`status`; the effect of the write on the device is kept. -/
def with_write_status {σ : Type} (bus : Bus σ) (status : Int) : Bus σ where
  read := bus.read
  write := fun dev reg value => (status, (bus.write dev reg value).2)

/-- A register-file chip on which no write lands: a read returns the content
of the register, a write fails with `-EIO` and leaves the registers as they
were. -/
def deaf_bus : Bus (Nat → Int) where
  read := fun regs reg => (regs reg, regs)
  write := fun regs _ _ => (-5, regs)

/-- A transport whose read of the divisor register `0xA1` times out
(`-ETIMEDOUT`, `-110`) while every other register reads 254; writes succeed. -/
def timeout_bus : Bus Unit where
  read := fun _ reg => (if reg = 0xA1 then -110 else 254, ())
  write := fun _ _ _ => (0, ())

/-- The extraction of the refresh for channel `n`: `(fandiv >> 4) & 0x03` for
channel 0, `fandiv >> 6` for channel 1. -/
def fandiv_unpack (n : Fin 2) (fandiv : Int) : Nat :=
  if n = 0 then fandiv_unpack0 fandiv else fandiv_unpack1 fandiv

/-! ## Auxiliary facts -/

theorem exact_up_threshold (a b : Int) : ((a : ℚ) < (b : ℚ) * 5 / 4) ↔ 4 * a < 5 * b := by
  rw [lt_div_iff₀ (by norm_num : (0 : ℚ) < 4)]
  constructor
  · intro h
    have h2 : ((a * 4 : Int) : ℚ) < ((b * 5 : Int) : ℚ) := by push_cast; exact h
    have := Int.cast_lt.mp h2
    omega
  · intro h
    have h2 : ((a * 4 : Int) : ℚ) < ((b * 5 : Int) : ℚ) := Int.cast_lt.mpr (by omega)
    push_cast at h2; exact h2

theorem exact_down_threshold (a b : Int) : ((a : ℚ) > (b : ℚ) * 3) ↔ a > 3 * b := by
  constructor
  · intro h
    have h2 : ((b * 3 : Int) : ℚ) < ((a : Int) : ℚ) := by push_cast; exact h
    have := Int.cast_lt.mp h2
    omega
  · intro h
    have h2 : ((b * 3 : Int) : ℚ) < ((a : Int) : ℚ) := Int.cast_lt.mpr (by omega)
    push_cast at h2; exact h2

set_option maxRecDepth 100000 in
theorem div_mod_table : ∀ f : Fin 256, ∀ d : Fin 4,
    (div_mod_of (ASM58_RPM_FROM_REG f.val (ASM58_FANDIV_FROM_REG d.val))
        (asm58_fan_min_lim.getD d.val 0) d.val = 1 ↔
      4 * ASM58_RPM_FROM_REG f.val (ASM58_FANDIV_FROM_REG d.val)
        < 5 * asm58_fan_min_lim.getD d.val 0 ∧ d.val < 3) ∧
    (div_mod_of (ASM58_RPM_FROM_REG f.val (ASM58_FANDIV_FROM_REG d.val))
        (asm58_fan_min_lim.getD d.val 0) d.val = -1 ↔
      ASM58_RPM_FROM_REG f.val (ASM58_FANDIV_FROM_REG d.val)
        > 3 * asm58_fan_min_lim.getD d.val 0 ∧ d.val > 0) ∧
    (ASM58_RPM_FROM_REG f.val (ASM58_FANDIV_FROM_REG d.val)
        < Int.tdiv (5 * asm58_fan_min_lim.getD d.val 0) 4 ↔
      4 * ASM58_RPM_FROM_REG f.val (ASM58_FANDIV_FROM_REG d.val)
        < 5 * asm58_fan_min_lim.getD d.val 0) := by
  decide

theorem div_mod_of_cases (rpm lim : Int) (d : Nat) :
    div_mod_of rpm lim d = 1 ∨ div_mod_of rpm lim d = -1 ∨ div_mod_of rpm lim d = 0 := by
  unfold div_mod_of
  split_ifs <;> simp

theorem div_mod_of_one (rpm lim : Int) (d : Nat) (h : div_mod_of rpm lim d = 1) : d < 3 := by
  unfold div_mod_of at h
  split_ifs at h with h1 h2
  · exact h1.2
  · omega

theorem div_mod_of_neg_one (rpm lim : Int) (d : Nat) (h : div_mod_of rpm lim d = -1) : 0 < d := by
  unfold div_mod_of at h
  split_ifs at h with h1 h2
  exact h2.2

theorem lim_getD (d : Nat) (lim : Int) (h : asm58_fan_min_lim[d]? = some lim) :
    asm58_fan_min_lim.getD d 0 = lim := by
  simp [List.getD, h]


theorem u8_add_one (d : Nat) (h : d < 255) : u8 ((d : Int) + 1) = d + 1 := by
  unfold u8; omega

theorem u8_sub_one (d : Nat) (h : 0 < d) (h2 : d ≤ 256) : u8 ((d : Int) + -1) + 1 = d := by
  unfold u8; omega

theorem burst_log {σ : Type} (bus : Bus σ) (jiffies : Nat) (client : Client σ)
    (data : asm58_data) :
    (refresh_burst bus jiffies client data).1.log = client.log ++ burst_reads := by
  have h2 : ((2 : Fin 4) : Nat) = 2 := rfl
  have h3 : ((3 : Fin 4) : Nat) = 3 := rfl
  simp [refresh_burst, List.foldl, read_in_step, read_fandiv_step, read_fan_temp_step,
    asm58_read_byte, ASM58_REG_IN, ASM58_REG_FANDIV, ASM58_REG_FAN, ASM58_REG_TEMP, h2, h3,
    burst_reads]

theorem burst_stamp {σ : Type} (bus : Bus σ) (jiffies : Nat) (client : Client σ)
    (data : asm58_data) :
    (refresh_burst bus jiffies client data).2.valid = true ∧
    (refresh_burst bus jiffies client data).2.last_updated = jiffies := ⟨rfl, rfl⟩

theorem mod_of_lt_two_mul (x W : Nat) (h : x < 2 * W) :
    x % W = if x < W then x else x - W := by
  split_ifs with h1
  · exact Nat.mod_eq_of_lt h1
  · rw [Nat.mod_eq_sub_mod (by omega)]
    exact Nat.mod_eq_of_lt (by omega)

/-- On a counter of `bits` bits, `elapsed` ticks after `t0` the deadline
`t0 + ttl` has passed exactly when `ttl < elapsed`, as long as both lengths stay
within half the counter range. -/
theorem time_after_elapsed (bits t0 ttl elapsed : Nat) (hb : 0 < bits)
    (ht0 : t0 < 2 ^ bits) (httl : ttl < 2 ^ (bits - 1)) (hel : elapsed ≤ 2 ^ (bits - 1)) :
    time_after bits ((t0 + elapsed) % 2 ^ bits) ((t0 + ttl) % 2 ^ bits)
      = decide (ttl < elapsed) := by
  have hW : 2 ^ bits = 2 * 2 ^ (bits - 1) := by
    have : bits = (bits - 1) + 1 := by omega
    conv_lhs => rw [this, pow_succ]
    ring
  unfold time_after
  rw [Nat.mod_mod, Nat.mod_mod]
  generalize 2 ^ (bits - 1) = H at *
  generalize 2 ^ bits = W at *
  subst hW
  rw [mod_of_lt_two_mul (t0 + ttl) _ (by omega), mod_of_lt_two_mul (t0 + elapsed) _ (by omega)]
  rw [mod_of_lt_two_mul _ _ (by split_ifs <;> omega)]
  rw [decide_eq_decide]
  split_ifs <;> constructor <;> intro _ <;> omega

theorem lim_index_lt (d : Nat) (lim : Int) (h : asm58_fan_min_lim[d]? = some lim) : d < 4 := by
  have := (List.getElem?_eq_some_iff.mp h).1
  simpa [asm58_fan_min_lim] using this

theorem lim_of_lt (d : Nat) (h : d < 4) :
    asm58_fan_min_lim[d]? = some (asm58_fan_min_lim.getD d 0) := by
  interval_cases d <;> rfl

theorem show_fan_body_up {σ : Type} (bus : Bus σ) (n : Fin 2) (client : Client σ)
    (data : asm58_data) (lim : Int) (hlim : asm58_fan_min_lim[data.fan_div n]? = some lim)
    (h : div_mod_of (ASM58_RPM_FROM_REG (data.fan n) (ASM58_FANDIV_FROM_REG (data.fan_div n)))
      lim (data.fan_div n) = 1) :
    show_fan_body bus n client data =
      some (ASM58_RPM_FROM_REG (data.fan n) (ASM58_FANDIV_FROM_REG (data.fan_div n)),
        (asm58_write_byte bus client ASM58_REG_FANDIV
          (fandiv_pack ((stepped data n (data.fan_div n + 1)).fan_div 0)
            ((stepped data n (data.fan_div n + 1)).fan_div 1))).2,
        stepped data n (data.fan_div n + 1)) := by
  have h3 := div_mod_of_one _ _ _ h
  unfold show_fan_body
  rw [hlim]
  simp only [h]
  rw [if_pos (by decide), u8_add_one _ (by omega)]
  rfl

theorem show_fan_body_down {σ : Type} (bus : Bus σ) (n : Fin 2) (client : Client σ)
    (data : asm58_data) (lim : Int) (hlim : asm58_fan_min_lim[data.fan_div n]? = some lim)
    (h : div_mod_of (ASM58_RPM_FROM_REG (data.fan n) (ASM58_FANDIV_FROM_REG (data.fan_div n)))
      lim (data.fan_div n) = -1) :
    show_fan_body bus n client data =
      some (ASM58_RPM_FROM_REG (data.fan n) (ASM58_FANDIV_FROM_REG (data.fan_div n)),
        (asm58_write_byte bus client ASM58_REG_FANDIV
          (fandiv_pack ((stepped data n (data.fan_div n - 1)).fan_div 0)
            ((stepped data n (data.fan_div n - 1)).fan_div 1))).2,
        stepped data n (data.fan_div n - 1)) := by
  have h0 := div_mod_of_neg_one _ _ _ h
  have hd := lim_index_lt _ _ hlim
  have hu : u8 ((data.fan_div n : Int) + -1) = data.fan_div n - 1 := by
    have := u8_sub_one _ h0 (by omega)
    omega
  unfold show_fan_body
  rw [hlim]
  simp only [h]
  rw [if_pos (by decide), hu]
  rfl

theorem show_fan_body_stay {σ : Type} (bus : Bus σ) (n : Fin 2) (client : Client σ)
    (data : asm58_data) (lim : Int) (hlim : asm58_fan_min_lim[data.fan_div n]? = some lim)
    (h : div_mod_of (ASM58_RPM_FROM_REG (data.fan n) (ASM58_FANDIV_FROM_REG (data.fan_div n)))
      lim (data.fan_div n) = 0) :
    show_fan_body bus n client data =
      some (ASM58_RPM_FROM_REG (data.fan n) (ASM58_FANDIV_FROM_REG (data.fan_div n)),
        client, data) := by
  unfold show_fan_body
  rw [hlim]
  simp only [h]
  rw [if_neg (by decide)]

theorem burst_fields {σ : Type} (bus : Bus σ) (jiffies : Nat) (client : Client σ)
    (data : asm58_data) :
    (refresh_burst bus jiffies client data).2 =
      { valid := true
        last_updated := jiffies
        temp := fun i =>
          if i = 0 then u8 ((bus_answers bus client.dev burst_regs).getD 6 0)
          else u8 ((bus_answers bus client.dev burst_regs).getD 8 0)
        fan := fun i =>
          if i = 0 then u8 ((bus_answers bus client.dev burst_regs).getD 5 0)
          else u8 ((bus_answers bus client.dev burst_regs).getD 7 0)
        fan_div := fun i =>
          if i = 0 then fandiv_unpack0 ((bus_answers bus client.dev burst_regs).getD 4 0)
          else fandiv_unpack1 ((bus_answers bus client.dev burst_regs).getD 4 0)
        in_ := fun i => u8 ((bus_answers bus client.dev burst_regs).getD i.val 0) } := by
  have h2 : ((2 : Fin 4) : Nat) = 2 := rfl
  have h3 : ((3 : Fin 4) : Nat) = 3 := rfl
  simp only [refresh_burst, List.foldl, read_in_step, read_fandiv_step, read_fan_temp_step,
    asm58_read_byte, ASM58_REG_IN, ASM58_REG_FANDIV, ASM58_REG_FAN, ASM58_REG_TEMP,
    bus_answers, burst_regs]
  congr 1
  all_goals funext i; fin_cases i <;> simp [Function.update, h2, h3]

theorem needs_update_elapsed (k : Kconfig) (data : asm58_data) (elapsed : Nat)
    (hb : 0 < k.BITS_PER_LONG) (hz : 2 * k.HZ < 2 ^ (k.BITS_PER_LONG - 1))
    (ht0 : data.last_updated < 2 ^ k.BITS_PER_LONG)
    (hel : elapsed ≤ 2 ^ (k.BITS_PER_LONG - 1)) :
    needs_update k ((data.last_updated + elapsed) % 2 ^ k.BITS_PER_LONG) data =
      (!data.valid || decide (2 * k.HZ < elapsed)) := by
  unfold needs_update
  rw [time_after_elapsed k.BITS_PER_LONG data.last_updated (k.HZ * 2) elapsed hb ht0
    (by omega) hel]
  congr 2
  rw [Nat.mul_comm]

theorem pack_bits (a b : Nat) (ha : a ≤ 3) (hb : b ≤ 3) :
    (fandiv_pack a b >>> 4) &&& 3 = a ∧ (fandiv_pack a b >>> 6) &&& 3 = b ∧
      fandiv_pack a b &&& 0x0F = 0 ∧ fandiv_pack a b < 256 := by
  interval_cases a <;> interval_cases b <;> decide

theorem fandiv_pack_mod (a b : Nat) : fandiv_pack a b = fandiv_pack (a % 4) (b % 4) := by
  have ha := Nat.and_pow_two_sub_one_eq_mod a 2
  have hb := Nat.and_pow_two_sub_one_eq_mod b 2
  have ha4 := Nat.and_pow_two_sub_one_eq_mod (a % 4) 2
  have hb4 := Nat.and_pow_two_sub_one_eq_mod (b % 4) 2
  norm_num at ha hb ha4 hb4
  unfold fandiv_pack
  rw [ha, hb, ha4, hb4]

/-- The byte written by `show_fan` carries the two low bits of each in-memory
divisor in bits 4-5 and 6-7, and nothing else. -/
theorem pack_bits_mod (a b : Nat) :
    (fandiv_pack a b >>> 4) &&& 3 = a % 4 ∧ (fandiv_pack a b >>> 6) &&& 3 = b % 4 ∧
      fandiv_pack a b &&& 0x0F = 0 ∧ fandiv_pack a b < 256 := by
  rw [fandiv_pack_mod]
  exact pack_bits (a % 4) (b % 4) (by omega) (by omega)

theorem stepped_fan_div_le (data : asm58_data) (n : Fin 2) (x : Nat) (hx : x ≤ 3)
    (h : ∀ m, data.fan_div m ≤ 3) (m : Fin 2) : (stepped data n x).fan_div m ≤ 3 := by
  unfold stepped
  simp only [Function.update]
  split_ifs with hm
  · subst hm; exact hx
  · exact h m

theorem stepped_fan_div_same (data : asm58_data) (n : Fin 2) (x : Nat) :
    (stepped data n x).fan_div n = x := by
  simp [stepped]

theorem unpack_pack (a b : Nat) (ha : a ≤ 3) (hb : b ≤ 3) :
    fandiv_unpack0 ((fandiv_pack a b : Nat) : Int) = a ∧
      fandiv_unpack1 ((fandiv_pack a b : Nat) : Int) = b := by
  interval_cases a <;> interval_cases b <;> decide

theorem regfile_answers (regs : Nat → Int) (l : List Nat) :
    bus_answers regfile_bus regs l = l.map regs := by
  induction l with
  | nil => rfl
  | cons r l ih =>
    simp only [bus_answers, List.map_cons]
    exact congrArg _ ih

theorem testBit_small (x i : Nat) (hx : x < 4) : Nat.testBit x (i + 2) = false := by
  apply Nat.testBit_lt_two_pow
  calc x < 4 := hx
    _ = 2 ^ 2 := by norm_num
    _ ≤ 2 ^ (i + 2) := Nat.pow_le_pow_right (by norm_num) (by omega)

theorem ldiff_three (m : Nat) : Nat.ldiff 3 m = 3 - m % 4 := by
  have h : Nat.ldiff 3 m = Nat.ldiff 3 (m % 4) := by
    apply Nat.eq_of_testBit_eq
    intro i
    rw [Nat.testBit_ldiff, Nat.testBit_ldiff]
    have h4 : (4 : Nat) = 2 ^ 2 := by norm_num
    rw [h4, Nat.testBit_mod_two_pow]
    have h3 : (3 : Nat) = 2 ^ 2 - 1 := by norm_num
    rw [h3, Nat.testBit_two_pow_sub_one]
    by_cases hi : i < 2 <;> simp [hi]
  rw [h]
  have hr : m % 4 < 4 := Nat.mod_lt _ (by norm_num)
  generalize m % 4 = r at hr
  apply Nat.eq_of_testBit_eq
  intro i
  rw [Nat.testBit_ldiff]
  rcases i with _ | _ | i
  · interval_cases r <;> decide
  · interval_cases r <;> decide
  · rw [testBit_small 3 i (by norm_num), testBit_small (3 - r) i (by omega)]
    rfl

/-- On a two's-complement `int`, `x & 0x03` is the residue of `x` modulo 4. -/
theorem land_three (x : Int) : Int.land x 3 = x % 4 := by
  cases x with
  | ofNat m =>
    show ((m &&& 3 : Nat) : Int) = (m : Int) % 4
    have h := Nat.and_pow_two_sub_one_eq_mod m 2
    norm_num at h
    rw [h]; norm_cast
  | negSucc m =>
    show ((Nat.ldiff 3 m : Nat) : Int) = Int.negSucc m % 4
    rw [ldiff_three]
    have hr : m % 4 < 4 := Nat.mod_lt _ (by norm_num)
    rw [Int.negSucc_emod m (by norm_num : (0 : Int) < 4)]
    omega

/-- The masked extraction of channel 0 is in `0..3` whatever the read
returned, an error code included. -/
theorem fandiv_unpack0_le (fandiv : Int) : fandiv_unpack0 fandiv ≤ 3 := by
  unfold fandiv_unpack0 u8
  rw [land_three]
  omega

/-- The unmasked extraction of channel 1 is in `0..3` when the read returned a
byte. -/
theorem fandiv_unpack1_le (fandiv : Int) (h0 : 0 ≤ fandiv) (h1 : fandiv < 256) :
    fandiv_unpack1 fandiv ≤ 3 := by
  obtain ⟨m, rfl⟩ := Int.eq_ofNat_of_zero_le h0
  unfold fandiv_unpack1 u8
  show ((((m >>> 6 : Nat) : Int)) % 256).toNat ≤ 3
  rw [Nat.shiftRight_eq_div_pow]
  norm_num
  omega

/-! ## Properties of the driver -/

/-- C1: for every count below 256 and every divisor exponent `d` with table
entry `lim`, `show_fan` returns, and the divisor it leaves in `fan_div[n]` is
`d + 1` exactly when `rpm < lim * 5 / 4` over the rationals and `d < 3`, is
`d - 1` exactly when `rpm > lim * 3` and `d > 0`, and is `d` otherwise; the
integer threshold `(5 * lim) / 4` of the code decides as the exact one. -/
theorem show_fan_divisor_state_machine {σ : Type} (bus : Bus σ) (n : Fin 2)
    (client : Client σ) (data : asm58_data) (lim : Int) (hf : data.fan n < 256)
    (hlim : asm58_fan_min_lim[data.fan_div n]? = some lim) :
    ∃ client1 data1,
      show_fan_body bus n client data =
        some (ASM58_RPM_FROM_REG (data.fan n) (ASM58_FANDIV_FROM_REG (data.fan_div n)),
          client1, data1) ∧
      (data1.fan_div n = data.fan_div n + 1 ↔
        ((ASM58_RPM_FROM_REG (data.fan n) (ASM58_FANDIV_FROM_REG (data.fan_div n)) : ℚ)
            < (lim : ℚ) * 5 / 4 ∧ data.fan_div n < 3)) ∧
      (data1.fan_div n + 1 = data.fan_div n ↔
        ((ASM58_RPM_FROM_REG (data.fan n) (ASM58_FANDIV_FROM_REG (data.fan_div n)) : ℚ)
            > (lim : ℚ) * 3 ∧ data.fan_div n > 0)) ∧
      (¬ ((ASM58_RPM_FROM_REG (data.fan n) (ASM58_FANDIV_FROM_REG (data.fan_div n)) : ℚ)
            < (lim : ℚ) * 5 / 4 ∧ data.fan_div n < 3) →
        ¬ ((ASM58_RPM_FROM_REG (data.fan n) (ASM58_FANDIV_FROM_REG (data.fan_div n)) : ℚ)
            > (lim : ℚ) * 3 ∧ data.fan_div n > 0) →
        data1.fan_div n = data.fan_div n) ∧
      (ASM58_RPM_FROM_REG (data.fan n) (ASM58_FANDIV_FROM_REG (data.fan_div n))
            < Int.tdiv (5 * lim) 4 ↔
        (ASM58_RPM_FROM_REG (data.fan n) (ASM58_FANDIV_FROM_REG (data.fan_div n)) : ℚ)
            < (lim : ℚ) * 5 / 4) := by
  have hd : data.fan_div n < 4 := by
    have := (List.getElem?_eq_some_iff.mp hlim).1
    simpa [asm58_fan_min_lim] using this
  obtain ⟨hup, hdown, hthr⟩ := div_mod_table ⟨data.fan n, hf⟩ ⟨data.fan_div n, hd⟩
  simp only [lim_getD _ _ hlim] at hup hdown hthr
  rw [exact_up_threshold, exact_down_threshold]
  generalize hrpm :
    ASM58_RPM_FROM_REG (data.fan n) (ASM58_FANDIV_FROM_REG (data.fan_div n)) = rpm at *
  have hbody : show_fan_body bus n client data =
      if div_mod_of rpm lim (data.fan_div n) ≠ 0 then
        some (rpm,
          (asm58_write_byte bus client ASM58_REG_FANDIV
            (fandiv_pack
              (Function.update data.fan_div n
                (u8 ((data.fan_div n : Int) + div_mod_of rpm lim (data.fan_div n))) 0)
              (Function.update data.fan_div n
                (u8 ((data.fan_div n : Int) + div_mod_of rpm lim (data.fan_div n))) 1))).2,
          { data with
            fan_div := Function.update data.fan_div n
              (u8 ((data.fan_div n : Int) + div_mod_of rpm lim (data.fan_div n)))
            valid := false })
      else some (rpm, client, data) := by
    unfold show_fan_body
    rw [hlim]
    simp only [hrpm]
  rw [hbody]
  rcases div_mod_of_cases rpm lim (data.fan_div n) with h | h | h
  · have h3 := div_mod_of_one _ _ _ h
    have hu := hup.mp h
    rw [h]
    refine ⟨_, _, by rw [if_pos (by decide : (1 : Int) ≠ 0)], ?_, ?_, ?_, hthr⟩
    · simp only [Function.update_same]
      rw [u8_add_one _ (by omega)]
      simp [hu]
    · simp only [Function.update_same]
      rw [u8_add_one _ (by omega)]
      constructor
      · intro hc; omega
      · intro hc; omega
    · intro hc; exact absurd hu hc
  · have h0 := div_mod_of_neg_one _ _ _ h
    have hdn := hdown.mp h
    have hnu : ¬ (4 * rpm < 5 * lim ∧ data.fan_div n < 3) := by
      intro hc; have := hup.mpr hc; omega
    rw [h]
    refine ⟨_, _, by rw [if_pos (by decide : (-1 : Int) ≠ 0)], ?_, ?_, ?_, hthr⟩
    · simp only [Function.update_same]
      have := u8_sub_one _ h0 (by omega)
      constructor
      · intro hc; omega
      · intro hc; exact absurd hc hnu
    · simp only [Function.update_same]
      have := u8_sub_one _ h0 (by omega)
      simp [this, hdn]
    · intro _ hc; exact absurd hdn hc
  · have hnu : ¬ (4 * rpm < 5 * lim ∧ data.fan_div n < 3) := by
      intro hc; have := hup.mpr hc; omega
    have hnd : ¬ (rpm > 3 * lim ∧ data.fan_div n > 0) := by
      intro hc; have := hdown.mpr hc; omega
    rw [h]
    refine ⟨client, data, by simp, ?_, ?_, ?_, hthr⟩
    · constructor
      · intro hc; omega
      · intro hc; exact absurd hc hnu
    · constructor
      · intro hc; omega
      · intro hc; exact absurd hc hnd
    · intro _ _; rfl


/-- Witness of C1: count 254 under divisor exponent 2 (table entry 1328, RPM
1328): the hypotheses hold and the divisor becomes 3. -/
theorem show_fan_divisor_state_machine_witness :
    (cached 254 2).fan 0 < 256 ∧ asm58_fan_min_lim[(cached 254 2).fan_div 0]? = some 1328 ∧
      ∃ client1 data1,
        show_fan_body eio_bus 0 (new_client ()) (cached 254 2) = some (1328, client1, data1) ∧
          data1.fan_div 0 = 3 := by
  obtain ⟨client1, data1, h1, h2, -⟩ :=
    show_fan_divisor_state_machine eio_bus 0 (new_client ()) (cached 254 2) 1328
      (by decide) (by decide)
  refine ⟨by decide, by decide, client1, data1, h1, h2.mpr ⟨?_, by decide⟩⟩
  rw [exact_up_threshold]
  decide

/-- C2: the fan RPM conversion `ASM58_RPM_FROM_REG(f, ASM58_FANDIV_FROM_REG(d))`
is 0 when the count is 0 or 255, and otherwise the integer quotient
`1350000 / (f * 2 ^ d)`; for count 50 and exponent 1 it is 13500. -/
theorem rpm_from_reg_formula (f d : Nat) :
    ((f = 0 ∨ f = 255) → ASM58_RPM_FROM_REG f (ASM58_FANDIV_FROM_REG d) = 0) ∧
    (f ≠ 0 → f ≠ 255 →
      ASM58_RPM_FROM_REG f (ASM58_FANDIV_FROM_REG d) = ((1350000 / (f * 2 ^ d) : Nat) : Int)) ∧
    ASM58_RPM_FROM_REG 50 (ASM58_FANDIV_FROM_REG 1) = 13500 := by
  refine ⟨?_, ?_, by decide⟩
  · intro h
    unfold ASM58_RPM_FROM_REG
    rw [if_pos (by omega)]
  · intro h0 h255
    unfold ASM58_RPM_FROM_REG ASM58_FANDIV_FROM_REG
    rw [if_neg (by omega), Nat.one_shiftLeft, Int.ofNat_tdiv]
    push_cast
    rfl

/-- Witness of C2: count 100 under exponent 3 gives `1350000 / 800 = 1687`. -/
theorem rpm_from_reg_formula_witness :
    (100 : Nat) ≠ 0 ∧ (100 : Nat) ≠ 255 ∧
      ASM58_RPM_FROM_REG 100 (ASM58_FANDIV_FROM_REG 3) = 1687 :=
  ⟨by decide, by decide, (rpm_from_reg_formula 100 3).2.1 (by decide) (by decide)⟩

set_option maxRecDepth 100000 in
theorem and_0x80 : ∀ b : Fin 256, (b.val &&& 0x80 ≠ 0) ↔ ¬ b.val < 0x80 := by
  decide

/-- C3: for every raw temperature byte `b`, `ASM58_TEMP_FROM_REG(b)` is
`b * 1000` when `b < 0x80` and `(b - 256) * 1000` otherwise; `0x80` gives
`-128000` and `0x7F` gives `127000`. -/
theorem temp_from_reg_formula (b : Nat) (hb : b < 256) :
    ASM58_TEMP_FROM_REG b =
        (if b < 0x80 then (b : Int) * 1000 else ((b : Int) - 256) * 1000) ∧
    ASM58_TEMP_FROM_REG 0x80 = -128000 ∧ ASM58_TEMP_FROM_REG 0x7F = 127000 := by
  refine ⟨?_, by decide, by decide⟩
  have h := and_0x80 ⟨b, hb⟩
  simp only at h
  unfold ASM58_TEMP_FROM_REG
  by_cases hlt : b < 0x80
  · rw [if_neg (fun hc => (h.mp hc) hlt), if_pos hlt]
  · rw [if_pos (h.mpr hlt), if_neg hlt]

/-- Witness of C3: the byte `0xFF` decodes to `-1000`. -/
theorem temp_from_reg_formula_witness :
    (255 : Nat) < 256 ∧ ASM58_TEMP_FROM_REG 255 = -1000 :=
  ⟨by decide, by
    have h := (temp_from_reg_formula 255 (by decide)).1
    rw [h]; decide⟩


/-- C4 (the code breaks the invariant): from the attach-time state, one
refresh over a bus whose reads fail with `-EIO` leaves `fan_div[1] = 255`,
outside `0..3`, and the fan read of channel 1 then indexes the four-entry
limit table out of bounds. -/
theorem failed_read_breaks_fan_div_range :
    asm58_probe.fan_div 1 = 0 ∧
    (asm58_update_device sample_kconfig eio_bus 0 0 (new_client ()) asm58_probe).2.fan_div 1
      = 255 ∧
    (show_fan sample_kconfig eio_bus 0 0 1 (new_client ()) asm58_probe).isNone = true := by
  decide

/-- C5 (counterexample): with divisor exponent 2 and the cached count 254, whose
RPM is exactly `limit[2] = 1328`, a fan read inside the two-second window steps
the divisor to 3, clears `valid` and issues one write to `0xA1`. -/
theorem no_op_band_at_limit_counterexample :
    ASM58_RPM_FROM_REG 254 (ASM58_FANDIV_FROM_REG 2) = 1328 ∧
    (show_fan sample_kconfig regfile_bus 1001 1001 0 (new_client (fun _ => 0)) (cached 254 2)).map
        (fun r => (r.1, r.2.1.log, r.2.2.fan_div 0, r.2.2.valid)) =
      some (1328, [BusOp.wr 0xA1 0xB0], 3, false) := by
  decide

/-- C5 (amended): at divisor exponent 2 the no-op band is `1660 ≤ rpm ≤ 3984`:
there `show_fan` leaves the client data and the bus untouched; below 1660, in
particular at `rpm = limit[2] = 1328`, it steps the divisor to 3, clears
`valid` and issues exactly one write, to `0xA1`. -/
theorem band_at_exponent_two {σ : Type} (bus : Bus σ) (n : Fin 2) (client : Client σ)
    (data : asm58_data) (hd : data.fan_div n = 2) :
    (1660 ≤ ASM58_RPM_FROM_REG (data.fan n) (ASM58_FANDIV_FROM_REG 2) →
      ASM58_RPM_FROM_REG (data.fan n) (ASM58_FANDIV_FROM_REG 2) ≤ 3984 →
      show_fan_body bus n client data =
        some (ASM58_RPM_FROM_REG (data.fan n) (ASM58_FANDIV_FROM_REG 2), client, data)) ∧
    (ASM58_RPM_FROM_REG (data.fan n) (ASM58_FANDIV_FROM_REG 2) < 1660 →
      ∃ client1 data1 value,
        show_fan_body bus n client data =
          some (ASM58_RPM_FROM_REG (data.fan n) (ASM58_FANDIV_FROM_REG 2), client1, data1) ∧
        data1.fan_div n = 3 ∧ data1.valid = false ∧
        client1.log = client.log ++ [BusOp.wr 0xA1 value]) := by
  have hlim : asm58_fan_min_lim[data.fan_div n]? = some 1328 := by rw [hd]; rfl
  have ht : Int.tdiv (5 * 1328) 4 = 1660 := by decide
  constructor
  · intro h1 h2
    have h : div_mod_of (ASM58_RPM_FROM_REG (data.fan n) (ASM58_FANDIV_FROM_REG (data.fan_div n)))
        1328 (data.fan_div n) = 0 := by
      rw [hd]
      unfold div_mod_of
      rw [ht, if_neg (by omega), if_neg (by omega)]
    have := show_fan_body_stay bus n client data 1328 hlim h
    rw [hd] at this
    exact this
  · intro h1
    have h : div_mod_of (ASM58_RPM_FROM_REG (data.fan n) (ASM58_FANDIV_FROM_REG (data.fan_div n)))
        1328 (data.fan_div n) = 1 := by
      rw [hd]
      unfold div_mod_of
      rw [ht, if_pos ⟨h1, by decide⟩]
    have := show_fan_body_up bus n client data 1328 hlim h
    rw [hd] at this
    exact ⟨_, _, _, this, by simp [stepped], rfl, rfl⟩

/-- Witness of C5 (amended): count 200 under exponent 2 reads 1687 RPM, inside
the band, and nothing changes; count 254 reads 1328 RPM and steps up. -/
theorem band_at_exponent_two_witness :
    (cached 200 2).fan_div 0 = 2 ∧
    show_fan_body eio_bus 0 (new_client ()) (cached 200 2) =
      some (1687, new_client (), cached 200 2) ∧
    ∃ client1 data1 value,
      show_fan_body eio_bus 0 (new_client ()) (cached 254 2) = some (1328, client1, data1) ∧
      data1.fan_div 0 = 3 ∧ data1.valid = false ∧
      client1.log = (new_client ()).log ++ [BusOp.wr 0xA1 value] :=
  ⟨rfl,
    (band_at_exponent_two eio_bus 0 (new_client ()) (cached 200 2) rfl).1
      (by decide) (by decide),
    (band_at_exponent_two eio_bus 0 (new_client ()) (cached 254 2) rfl).2 (by decide)⟩


/-- C6 (counterexample): over a bus whose reads all fail with `-EIO`, a
refresh of the attach-time state sets `valid` and replaces the zero defaults by
the low byte 251 of the error code; a refresh of a stale good snapshot (fan
count 100) overwrites it in the same way. -/
theorem failed_refresh_counterexample :
    (asm58_probe.valid = false ∧ asm58_probe.temp 0 = 0 ∧ asm58_probe.in_ 0 = 0) ∧
    ((asm58_update_device sample_kconfig eio_bus 0 0 (new_client ()) asm58_probe).2.valid = true ∧
      (asm58_update_device sample_kconfig eio_bus 0 0 (new_client ()) asm58_probe).2.temp 0 = 251 ∧
      (asm58_update_device sample_kconfig eio_bus 0 0 (new_client ()) asm58_probe).2.in_ 0 = 251) ∧
    ((cached 100 1).fan 0 = 100 ∧ (cached 100 1).last_updated = 1000) ∧
    ((asm58_update_device sample_kconfig eio_bus 2000 2003 (new_client ())
        (cached 100 1)).2.fan 0 = 251 ∧
      (asm58_update_device sample_kconfig eio_bus 2000 2003 (new_client ())
        (cached 100 1)).2.last_updated = 2003) := by
  decide

/-- C6 (amended): a failed read is not reported: `asm58_update_device` has no
error result and never looks at the sign of what a read returns.  Whatever the
nine reads of a due refresh return, the burst runs to its end, issuing all
nine reads, sets `valid` and stamps `last_updated` with the current tick (the
tick counter as read at the stamp), as after a successful burst. -/
theorem refresh_ignores_read_failures {σ : Type} (k : Kconfig) (bus : Bus σ)
    (jiffies stamp : Nat) (client : Client σ) (data : asm58_data)
    (h : needs_update k jiffies data = true) :
    (asm58_update_device k bus jiffies stamp client data).1.log = client.log ++ burst_reads ∧
    (asm58_update_device k bus jiffies stamp client data).2.valid = true ∧
    (asm58_update_device k bus jiffies stamp client data).2.last_updated = stamp := by
  unfold asm58_update_device
  rw [if_pos h]
  exact ⟨burst_log bus stamp client data, burst_stamp bus stamp client data⟩

/-- Witness of C6 (amended): the attach-time state is due for a refresh, and
over the failing bus the refresh logs the nine reads and sets `valid`. -/
theorem refresh_ignores_read_failures_witness :
    needs_update sample_kconfig 0 asm58_probe = true ∧
    (asm58_update_device sample_kconfig eio_bus 0 0 (new_client ()) asm58_probe).1.log
      = burst_reads ∧
    (asm58_update_device sample_kconfig eio_bus 0 0 (new_client ()) asm58_probe).2.valid
      = true := by
  have h := refresh_ignores_read_failures sample_kconfig eio_bus 0 0 (new_client ())
    asm58_probe (by decide)
  exact ⟨by decide, by rw [h.1]; rfl, h.2.1⟩


/-- C7 (counterexample): a valid snapshot stamped at tick 1000 and read at
tick 1500, exactly two seconds of 250 ticks later, is not refreshed: no bus read
is issued. -/
theorem refresh_at_exact_ttl_counterexample :
    (cached 0 0).valid = true ∧
    1500 - (cached 0 0).last_updated = 2 * sample_kconfig.HZ ∧
    needs_update sample_kconfig 1500 (cached 0 0) = false ∧
    (asm58_update_device sample_kconfig regfile_bus 1500 1500 (new_client (fun _ => 0))
      (cached 0 0)).1.log = [] := by
  decide

/-- C7 (amended): `asm58_update_device` performs a refresh burst if and only if
`valid` is false or strictly more than two seconds (`2 * HZ` ticks) have
elapsed since `last_updated`, for elapsed times up to half the range of the
tick counter, wrap-around included; a call exactly `2 * HZ` ticks after the
last refresh of a valid snapshot issues no read. -/
theorem refresh_iff_strictly_after {σ : Type} (k : Kconfig) (bus : Bus σ)
    (client : Client σ) (data : asm58_data) (elapsed stamp : Nat)
    (hb : 0 < k.BITS_PER_LONG) (hz : 2 * k.HZ < 2 ^ (k.BITS_PER_LONG - 1))
    (ht0 : data.last_updated < 2 ^ k.BITS_PER_LONG)
    (hel : elapsed ≤ 2 ^ (k.BITS_PER_LONG - 1)) :
    ((data.valid = false ∨ 2 * k.HZ < elapsed) →
      asm58_update_device k bus ((data.last_updated + elapsed) % 2 ^ k.BITS_PER_LONG) stamp
          client data =
        refresh_burst bus stamp client data ∧
      (asm58_update_device k bus ((data.last_updated + elapsed) % 2 ^ k.BITS_PER_LONG) stamp
          client data).1.log = client.log ++ burst_reads) ∧
    (¬ (data.valid = false ∨ 2 * k.HZ < elapsed) →
      asm58_update_device k bus ((data.last_updated + elapsed) % 2 ^ k.BITS_PER_LONG) stamp
          client data = (client, data)) ∧
    (data.valid = true → elapsed = 2 * k.HZ →
      asm58_update_device k bus ((data.last_updated + elapsed) % 2 ^ k.BITS_PER_LONG) stamp
          client data = (client, data)) := by
  have hn := needs_update_elapsed k data elapsed hb hz ht0 hel
  have hno : ¬ (data.valid = false ∨ 2 * k.HZ < elapsed) →
      asm58_update_device k bus ((data.last_updated + elapsed) % 2 ^ k.BITS_PER_LONG) stamp
          client data = (client, data) := by
    intro hc
    unfold asm58_update_device
    rw [hn, if_neg]
    intro hc2
    apply hc
    cases hv : data.valid
    · exact Or.inl rfl
    · rw [hv] at hc2
      exact Or.inr (by simpa using hc2)
  refine ⟨?_, hno, ?_⟩
  · intro hc
    have hyes : asm58_update_device k bus
        ((data.last_updated + elapsed) % 2 ^ k.BITS_PER_LONG) stamp client data =
        refresh_burst bus stamp client data := by
      unfold asm58_update_device
      rw [hn, if_pos]
      rcases hc with hc | hc
      · rw [hc]; rfl
      · simp [hc]
    exact ⟨hyes, by rw [hyes]; exact burst_log _ _ _ _⟩
  · intro hv he
    apply hno
    rintro (hc | hc)
    · rw [hv] at hc; exact Bool.noConfusion hc
    · omega

/-- Witness of C7 (amended): on the 64-bit, 250 Hz kernel, a valid snapshot
stamped at tick 1000 is refreshed 501 ticks later, and left alone 500 ticks
later. -/
theorem refresh_iff_strictly_after_witness :
    (0 < sample_kconfig.BITS_PER_LONG ∧
      2 * sample_kconfig.HZ < 2 ^ (sample_kconfig.BITS_PER_LONG - 1) ∧
      (cached 0 0).last_updated < 2 ^ sample_kconfig.BITS_PER_LONG ∧
      501 ≤ 2 ^ (sample_kconfig.BITS_PER_LONG - 1)) ∧
    (asm58_update_device sample_kconfig eio_bus
        (((cached 0 0).last_updated + 501) % 2 ^ sample_kconfig.BITS_PER_LONG) 1510
        (new_client ()) (cached 0 0)).1.log = (new_client ()).log ++ burst_reads ∧
    asm58_update_device sample_kconfig eio_bus
        (((cached 0 0).last_updated + 500) % 2 ^ sample_kconfig.BITS_PER_LONG) 1500
        (new_client ()) (cached 0 0) = (new_client (), cached 0 0) :=
  ⟨⟨by decide, by decide, by decide, by decide⟩,
    ((refresh_iff_strictly_after sample_kconfig eio_bus (new_client ()) (cached 0 0) 501 1510
      (by decide) (by decide) (by decide) (by decide)).1 (Or.inr (by decide))).2,
    (refresh_iff_strictly_after sample_kconfig eio_bus (new_client ()) (cached 0 0) 500 1500
      (by decide) (by decide) (by decide) (by decide)).2.2 rfl rfl⟩


/-- C8 (counterexample): a valid snapshot stamped at tick 1000 is refreshed by
a call at tick 1501, one tick past the two-second window of 500 ticks; the
nine bus reads take until tick 1510, and `last_updated` is set to 1510, the
tick read after the burst, not to the tick 1501 of the call. -/
theorem stamp_after_burst_counterexample :
    (cached 0 0).valid = true ∧
    (cached 0 0).last_updated + 2 * sample_kconfig.HZ + 1 = 1501 ∧
    (asm58_update_device sample_kconfig regfile_bus 1501 1510 (new_client (fun _ => 0))
      (cached 0 0)).1.log = burst_reads ∧
    (asm58_update_device sample_kconfig regfile_bus 1501 1510 (new_client (fun _ => 0))
      (cached 0 0)).2.last_updated = 1510 ∧
    (asm58_update_device sample_kconfig regfile_bus 1501 1510 (new_client (fun _ => 0))
      (cached 0 0)).2.last_updated ≠ 1501 := by
  decide

/-- C8 (amended): for a valid snapshot stamped at `t0`, a call of
`asm58_update_device` at a tick `t0 + d` with `d ≤ TTL - 1` (`TTL = 2 * HZ`)
issues no bus read and leaves client and data unchanged, while a call at
`t0 + TTL + 1` appends exactly the nine reads of one burst to the log, sets
`valid` and sets `last_updated` to the tick counter as read after the burst
(`stamp`, which is the tick of the call only when the burst completes within
it); so a refresh stamped at `t0` followed by a call inside the window
performs exactly one burst.  Ticks are taken modulo the width of the counter. -/
theorem ttl_window {σ : Type} (k : Kconfig) (bus : Bus σ) (client : Client σ)
    (data stale : asm58_data) (d t1 stamp : Nat)
    (hb : 0 < k.BITS_PER_LONG) (hz : 2 * k.HZ + 1 ≤ 2 ^ (k.BITS_PER_LONG - 1))
    (hv : data.valid = true) (ht0 : data.last_updated < 2 ^ k.BITS_PER_LONG)
    (hd : d + 1 ≤ 2 * k.HZ)
    (hs : needs_update k t1 stale = true) :
    asm58_update_device k bus ((data.last_updated + d) % 2 ^ k.BITS_PER_LONG) stamp
        client data = (client, data) ∧
    ((asm58_update_device k bus
        ((data.last_updated + (2 * k.HZ + 1)) % 2 ^ k.BITS_PER_LONG) stamp client data).1.log
        = client.log ++ burst_reads ∧
      burst_reads.length = 9 ∧
      (asm58_update_device k bus
        ((data.last_updated + (2 * k.HZ + 1)) % 2 ^ k.BITS_PER_LONG) stamp client data).2.valid
        = true ∧
      (asm58_update_device k bus
        ((data.last_updated + (2 * k.HZ + 1)) % 2 ^ k.BITS_PER_LONG) stamp
        client data).2.last_updated = stamp) ∧
    ((asm58_update_device k bus t1 data.last_updated client stale).1.log
        = client.log ++ burst_reads ∧
      (asm58_update_device k bus t1 data.last_updated client stale).2.last_updated
        = data.last_updated ∧
      asm58_update_device k bus ((data.last_updated + d) % 2 ^ k.BITS_PER_LONG) stamp
          (asm58_update_device k bus t1 data.last_updated client stale).1
          (asm58_update_device k bus t1 data.last_updated client stale).2
        = asm58_update_device k bus t1 data.last_updated client stale) := by
  have inside : ∀ (c : Client σ) (x : asm58_data), x.valid = true →
      x.last_updated = data.last_updated →
      asm58_update_device k bus ((data.last_updated + d) % 2 ^ k.BITS_PER_LONG) stamp c x
        = (c, x) := by
    intro c x hxv hxt
    have hn := needs_update_elapsed k x d hb (by omega) (by rw [hxt]; exact ht0) (by omega)
    rw [hxt] at hn
    unfold asm58_update_device
    rw [hn, hxv, if_neg]
    simp
    omega
  refine ⟨inside client data hv rfl, ?_, ?_⟩
  · have hn := needs_update_elapsed k data (2 * k.HZ + 1) hb (by omega) ht0 hz
    have hyes : asm58_update_device k bus
        ((data.last_updated + (2 * k.HZ + 1)) % 2 ^ k.BITS_PER_LONG) stamp client data =
        refresh_burst bus stamp client data := by
      unfold asm58_update_device
      rw [hn, if_pos]
      simp
    rw [hyes]
    exact ⟨burst_log _ _ _ _, rfl, rfl, rfl⟩
  · have hyes : asm58_update_device k bus t1 data.last_updated client stale =
        refresh_burst bus data.last_updated client stale := by
      unfold asm58_update_device
      rw [if_pos hs]
    rw [hyes]
    exact ⟨burst_log _ _ _ _, rfl, inside _ _ rfl rfl⟩

/-- Witness of C8 (amended): on the 64-bit, 250 Hz kernel, a valid snapshot
stamped at tick 1000 is left alone at tick 1499, and refreshed at tick 1501
with the stamp 1510 read after the burst; the attach-time data stand for the
stale state before the refresh stamped at `t0`. -/
theorem ttl_window_witness :
    (0 < sample_kconfig.BITS_PER_LONG ∧
      2 * sample_kconfig.HZ + 1 ≤ 2 ^ (sample_kconfig.BITS_PER_LONG - 1) ∧
      (cached 0 0).valid = true ∧
      (cached 0 0).last_updated < 2 ^ sample_kconfig.BITS_PER_LONG ∧
      499 + 1 ≤ 2 * sample_kconfig.HZ ∧
      needs_update sample_kconfig 990 asm58_probe = true) ∧
    asm58_update_device sample_kconfig regfile_bus 1499 1510 (new_client (fun _ => 0))
      (cached 0 0) = (new_client (fun _ => 0), cached 0 0) ∧
    (asm58_update_device sample_kconfig regfile_bus 1501 1510 (new_client (fun _ => 0))
      (cached 0 0)).2.last_updated = 1510 :=
  ⟨⟨by decide, by decide, by decide, by decide, by decide, by decide⟩,
    (ttl_window sample_kconfig regfile_bus (new_client (fun _ => 0)) (cached 0 0) asm58_probe
      499 990 1510 (by decide) (by decide) (by decide) (by decide) (by decide)
      (by decide)).1,
    (ttl_window sample_kconfig regfile_bus (new_client (fun _ => 0)) (cached 0 0) asm58_probe
      499 990 1510 (by decide) (by decide) (by decide) (by decide) (by decide)
      (by decide)).2.1.2.2.2⟩

/-- C9 (counterexample): from the attach-time data, over a bus whose read of
`0xA1` times out (`-110`) and whose other registers read 254, the refresh
inside `show_fan` loads `fan_div = [1, 254]` and count 254; the read of channel
0 (2657 RPM) then steps `fan_div[0]` to 2 and writes `0xA0`, whose bits 6-7 are
2, the two low bits of `fan_div[1]`, not `fan_div[1] = 254`. -/
theorem write_masks_divisor_counterexample :
    (asm58_update_device sample_kconfig timeout_bus 0 0 (new_client ()) asm58_probe).2.fan_div 0
      = 1 ∧
    (asm58_update_device sample_kconfig timeout_bus 0 0 (new_client ()) asm58_probe).2.fan_div 1
      = 254 ∧
    (show_fan sample_kconfig timeout_bus 0 0 0 (new_client ()) asm58_probe).map
        (fun r => (r.1, r.2.2.fan_div 0, r.2.2.fan_div 1, r.2.2.valid, r.2.1.log.drop 9)) =
      some (2657, 2, 254, false, [BusOp.wr 0xA1 0xA0]) ∧
    ((0xA0 >>> 6) &&& 3 = 2 ∧ (0xA0 >>> 6) &&& 3 ≠ 254) := by
  have h0 : fandiv_unpack0 (-110) = 1 := by
    unfold fandiv_unpack0
    rw [land_three]
    decide
  have hu : asm58_update_device sample_kconfig timeout_bus 0 0 (new_client ()) asm58_probe =
      refresh_burst timeout_bus 0 (new_client ()) asm58_probe := rfl
  have hc : (refresh_burst timeout_bus 0 (new_client ()) asm58_probe).1 =
      { dev := (), log := burst_reads } := rfl
  have hd : (refresh_burst timeout_bus 0 (new_client ()) asm58_probe).2 =
      { valid := true, last_updated := 0, temp := fun _ => 254, fan := fun _ => 254,
        fan_div := fun i => if i = 0 then 1 else 254, in_ := fun _ => 254 } := by
    rw [burst_fields]
    have ha : bus_answers timeout_bus (new_client ()).dev burst_regs =
        [254, 254, 254, 254, -110, 254, 254, 254, 254] := rfl
    rw [ha]
    congr 1
    · funext i; fin_cases i <;> rfl
    · funext i; fin_cases i <;> rfl
    · funext i
      fin_cases i
      · exact h0
      · rfl
    · funext i; fin_cases i <;> rfl
  unfold show_fan
  rw [hu, hc, hd]
  exact ⟨rfl, rfl, by decide, by decide, by decide⟩

/-- C9 (amended): on data whose divisor for channel `n` is in `0..3`, `show_fan`
returns; when it performs a divisor transition on channel `n` (`div_mod` is
non-zero, that is `fan_div[n]` changes) it clears `valid` and issues exactly
one bus write, to register `0xA1`, of a byte whose bits 4-5 are the two low
bits of the new `fan_div[0]`, whose bits 6-7 are the two low bits of the new
`fan_div[1]` and whose bits 0-3 are zero; a divisor that is in `0..3`, as the
stepped one always is, appears in its field unchanged.  When no transition
fires the call issues no bus operation and leaves the data, `valid` included,
unchanged. -/
theorem transition_write {σ : Type} (bus : Bus σ) (n : Fin 2) (client : Client σ)
    (data : asm58_data) (hd : data.fan_div n ≤ 3) :
    ∃ rpm client1 data1,
      show_fan_body bus n client data = some (rpm, client1, data1) ∧
      (div_mod_of rpm (asm58_fan_min_lim.getD (data.fan_div n) 0) (data.fan_div n) ≠ 0 ↔
        data1.fan_div n ≠ data.fan_div n) ∧
      (data1.fan_div n ≠ data.fan_div n →
        data1.valid = false ∧ data1.fan_div n ≤ 3 ∧
        ∃ value, client1.log = client.log ++ [BusOp.wr 0xA1 value] ∧
          (value >>> 4) &&& 3 = data1.fan_div 0 % 4 ∧
          (value >>> 6) &&& 3 = data1.fan_div 1 % 4 ∧
          value &&& 0x0F = 0 ∧ value < 256 ∧
          (data1.fan_div 0 ≤ 3 → (value >>> 4) &&& 3 = data1.fan_div 0) ∧
          (data1.fan_div 1 ≤ 3 → (value >>> 6) &&& 3 = data1.fan_div 1)) ∧
      (data1.fan_div n = data.fan_div n → client1 = client ∧ data1 = data) := by
  have hlim := lim_of_lt (data.fan_div n) (by omega)
  have hwrite : ∀ (x : asm58_data),
      ∃ value, (asm58_write_byte bus client ASM58_REG_FANDIV
          (fandiv_pack (x.fan_div 0) (x.fan_div 1))).2.log
          = client.log ++ [BusOp.wr 0xA1 value] ∧
        (value >>> 4) &&& 3 = x.fan_div 0 % 4 ∧
        (value >>> 6) &&& 3 = x.fan_div 1 % 4 ∧
        value &&& 0x0F = 0 ∧ value < 256 ∧
        (x.fan_div 0 ≤ 3 → (value >>> 4) &&& 3 = x.fan_div 0) ∧
        (x.fan_div 1 ≤ 3 → (value >>> 6) &&& 3 = x.fan_div 1) := by
    intro x
    obtain ⟨b1, b2, b3, b4⟩ := pack_bits_mod (x.fan_div 0) (x.fan_div 1)
    refine ⟨_, rfl, b1, b2, b3, b4, ?_, ?_⟩
    · intro hx; rw [b1]; exact Nat.mod_eq_of_lt (by omega)
    · intro hx; rw [b2]; exact Nat.mod_eq_of_lt (by omega)
  rcases div_mod_of_cases
      (ASM58_RPM_FROM_REG (data.fan n) (ASM58_FANDIV_FROM_REG (data.fan_div n)))
      (asm58_fan_min_lim.getD (data.fan_div n) 0) (data.fan_div n) with h | h | h
  · have h3 := div_mod_of_one _ _ _ h
    have hsame := stepped_fan_div_same data n (data.fan_div n + 1)
    have hne : (stepped data n (data.fan_div n + 1)).fan_div n ≠ data.fan_div n := by
      rw [hsame]; omega
    refine ⟨_, _, _, show_fan_body_up bus n client data _ hlim h, ?_, ?_, ?_⟩
    · rw [h]; exact ⟨fun _ => hne, fun _ => by decide⟩
    · intro _
      exact ⟨rfl, by rw [hsame]; omega, hwrite _⟩
    · intro hc; exact absurd hc hne
  · have hpos := div_mod_of_neg_one _ _ _ h
    have hsame := stepped_fan_div_same data n (data.fan_div n - 1)
    have hne : (stepped data n (data.fan_div n - 1)).fan_div n ≠ data.fan_div n := by
      rw [hsame]; omega
    refine ⟨_, _, _, show_fan_body_down bus n client data _ hlim h, ?_, ?_, ?_⟩
    · rw [h]; exact ⟨fun _ => hne, fun _ => by decide⟩
    · intro _
      exact ⟨rfl, by rw [hsame]; omega, hwrite _⟩
    · intro hc; exact absurd hc hne
  · refine ⟨_, _, _, show_fan_body_stay bus n client data _ hlim h, ?_, ?_, ?_⟩
    · rw [h]; exact ⟨fun hc => absurd rfl hc, fun hc => absurd rfl hc⟩
    · intro hc; exact absurd rfl hc
    · intro _; exact ⟨rfl, rfl⟩

/-- Witness of C9 (amended): channel 0 at exponent 2 with count 254 (1328 RPM)
steps up: `valid` is cleared and the single logged operation is a write to
`0xA1` whose bit fields are the new divisors, both in `0..3`. -/
theorem transition_write_witness :
    (cached 254 2).fan_div 0 ≤ 3 ∧
    ∃ rpm client1 data1,
      show_fan_body eio_bus 0 (new_client ()) (cached 254 2) = some (rpm, client1, data1) ∧
      data1.fan_div 0 = 3 ∧ data1.valid = false ∧
      ∃ value, client1.log = (new_client ()).log ++ [BusOp.wr 0xA1 value] ∧
        (value >>> 4) &&& 3 = data1.fan_div 0 ∧ (value >>> 6) &&& 3 = data1.fan_div 1 := by
  obtain ⟨rpm, client1, data1, hb, -, ht, -⟩ :=
    transition_write eio_bus 0 (new_client ()) (cached 254 2) (by decide)
  have he : show_fan_body eio_bus 0 (new_client ()) (cached 254 2) =
      some (1328,
        (asm58_write_byte eio_bus (new_client ()) ASM58_REG_FANDIV (fandiv_pack 3 2)).2,
        stepped (cached 254 2) 0 3) := by
    rfl
  have hb1 := hb
  rw [he] at hb1
  simp only [Option.some.injEq, Prod.mk.injEq] at hb1
  obtain ⟨-, -, hd⟩ := hb1
  have h3 : data1.fan_div 0 = 3 := by rw [← hd]; rfl
  have h2 : data1.fan_div 1 = 2 := by rw [← hd]; rfl
  have hne : data1.fan_div 0 ≠ (cached 254 2).fan_div 0 := by rw [h3]; decide
  obtain ⟨hv, -, value, hlog, -, -, -, -, hf0, hf1⟩ := ht hne
  exact ⟨by decide, rpm, client1, data1, hb, h3, hv, value, hlog,
    hf0 (by rw [h3]), hf1 (by rw [h2]; decide)⟩

/-- C10: on divisors `d0, d1` in `0..3`, the extraction of the refresh,
`(b >> 4) & 3` and `b >> 6`, applied to the byte
`((d0 & 3) << 4) | ((d1 & 3) << 6)` written by `show_fan`, gives back `d0` and
`d1`; and on a chip that stores the written byte, a refresh burst that follows
the write reloads exactly `d0` and `d1` into `fan_div`. -/
theorem fandiv_pack_unpack (d0 d1 : Nat) (h0 : d0 ≤ 3) (h1 : d1 ≤ 3) :
    fandiv_unpack0 ((fandiv_pack d0 d1 : Nat) : Int) = d0 ∧
    fandiv_unpack1 ((fandiv_pack d0 d1 : Nat) : Int) = d1 ∧
    ∀ (jiffies : Nat) (client : Client (Nat → Int)) (data : asm58_data),
      (refresh_burst regfile_bus jiffies
        (asm58_write_byte regfile_bus client ASM58_REG_FANDIV (fandiv_pack d0 d1)).2
        data).2.fan_div 0 = d0 ∧
      (refresh_burst regfile_bus jiffies
        (asm58_write_byte regfile_bus client ASM58_REG_FANDIV (fandiv_pack d0 d1)).2
        data).2.fan_div 1 = d1 := by
  obtain ⟨hu0, hu1⟩ := unpack_pack d0 d1 h0 h1
  refine ⟨hu0, hu1, ?_⟩
  intro jiffies client data
  rw [burst_fields]
  simp only [regfile_answers]
  have hreg : (asm58_write_byte regfile_bus client ASM58_REG_FANDIV (fandiv_pack d0 d1)).2.dev
      0xA1 = ((fandiv_pack d0 d1 : Nat) : Int) := by
    simp [asm58_write_byte, regfile_bus, ASM58_REG_FANDIV]
  have h4 : (List.map
      (asm58_write_byte regfile_bus client ASM58_REG_FANDIV (fandiv_pack d0 d1)).2.dev
      burst_regs).getD 4 0 = ((fandiv_pack d0 d1 : Nat) : Int) := by
    rw [← hreg]; rfl
  rw [h4, hu0, hu1]
  exact ⟨rfl, rfl⟩

/-- Witness of C10: the divisors 3 and 2 pack into `0xB0` and unpack again. -/
theorem fandiv_pack_unpack_witness :
    ((3 : Nat) ≤ 3 ∧ (2 : Nat) ≤ 3) ∧ fandiv_pack 3 2 = 0xB0 ∧
    fandiv_unpack0 ((fandiv_pack 3 2 : Nat) : Int) = 3 ∧
    fandiv_unpack1 ((fandiv_pack 3 2 : Nat) : Int) = 2 :=
  ⟨⟨by decide, by decide⟩, by decide,
    (fandiv_pack_unpack 3 2 (by decide) (by decide)).1,
    (fandiv_pack_unpack 3 2 (by decide) (by decide)).2.1⟩


theorem next_fan_div_zero (rpm : Int) :
    next_fan_div rpm 0 = some (if rpm < 6642 then 1 else 0) := by
  have ht : Int.tdiv (5 * 5314) 4 = 6642 := by decide
  have hl : asm58_fan_min_lim[0]? = some 5314 := rfl
  unfold next_fan_div
  rw [hl]
  simp only [div_mod_of, ht]
  split_ifs <;> first | rfl | omega

theorem next_fan_div_one (rpm : Int) :
    next_fan_div rpm 1 = some (if rpm < 3321 then 2 else if rpm > 7971 then 0 else 1) := by
  have ht : Int.tdiv (5 * 2657) 4 = 3321 := by decide
  have hl : asm58_fan_min_lim[1]? = some 2657 := rfl
  unfold next_fan_div
  rw [hl]
  simp only [div_mod_of, ht]
  split_ifs <;> first | rfl | omega

theorem next_fan_div_two (rpm : Int) :
    next_fan_div rpm 2 = some (if rpm < 1660 then 3 else if rpm > 3984 then 1 else 2) := by
  have ht : Int.tdiv (5 * 1328) 4 = 1660 := by decide
  have hl : asm58_fan_min_lim[2]? = some 1328 := rfl
  unfold next_fan_div
  rw [hl]
  simp only [div_mod_of, ht]
  split_ifs <;> first | rfl | omega

theorem next_fan_div_three (rpm : Int) :
    next_fan_div rpm 3 = some (if rpm > 1992 then 2 else 3) := by
  have ht : Int.tdiv (5 * 664) 4 = 830 := by decide
  have hl : asm58_fan_min_lim[3]? = some 664 := rfl
  unfold next_fan_div
  rw [hl]
  simp only [div_mod_of, ht]
  split_ifs <;> first | rfl | omega

theorem fan_div_after_add (a b : Nat) (rpm : Int) (d : Nat) :
    fan_div_after (a + b) rpm d = (fan_div_after a rpm d).bind (fan_div_after b rpm) := by
  induction a generalizing d with
  | zero => simp [fan_div_after]
  | succ a ih =>
    rw [Nat.add_right_comm]
    simp only [fan_div_after]
    cases next_fan_div rpm d with
    | none => rfl
    | some d1 => exact ih d1

theorem fan_div_after_fixed (rpm : Int) (d : Nat) (h : next_fan_div rpm d = some d)
    (j : Nat) : fan_div_after j rpm d = some d := by
  induction j with
  | zero => rfl
  | succ j ih => simp only [fan_div_after, h, Option.some_bind, ih]

/-- The settling of the divisor under a constant RPM, in three steps, region
by region of the RPM axis. -/
theorem fan_div_settles (rpm : Int) (d : Nat) (hd : d ≤ 3) :
    ∃ d1, fan_div_after 3 rpm d = some d1 ∧ d1 ≤ 3 ∧ next_fan_div rpm d1 = some d1 := by
  have n0 := next_fan_div_zero rpm
  have n1 := next_fan_div_one rpm
  have n2 := next_fan_div_two rpm
  have n3 := next_fan_div_three rpm
  by_cases h1 : rpm < 1660
  · rw [if_pos (by omega)] at n0 n1 n2
    rw [if_neg (by omega)] at n3
    interval_cases d <;> simp [fan_div_after, n0, n1, n2, n3]
  by_cases h2 : rpm ≤ 1992
  · rw [if_pos (by omega)] at n0 n1
    rw [if_neg (by omega), if_neg (by omega)] at n2
    rw [if_neg (by omega)] at n3
    interval_cases d <;> simp [fan_div_after, n0, n1, n2, n3]
  by_cases h3 : rpm < 3321
  · rw [if_pos (by omega)] at n0 n1 n3
    rw [if_neg (by omega), if_neg (by omega)] at n2
    interval_cases d <;> simp [fan_div_after, n0, n1, n2, n3]
  by_cases h4 : rpm ≤ 3984
  · rw [if_pos (by omega)] at n0 n3
    rw [if_neg (by omega), if_neg (by omega)] at n1 n2
    interval_cases d <;> simp [fan_div_after, n0, n1, n2, n3]
  by_cases h5 : rpm < 6642
  · rw [if_pos (by omega)] at n0 n3
    rw [if_neg (by omega), if_neg (by omega)] at n1
    rw [if_neg (by omega), if_pos (by omega)] at n2
    interval_cases d <;> simp [fan_div_after, n0, n1, n2, n3]
  by_cases h6 : rpm ≤ 7971
  · rw [if_neg (by omega)] at n0
    rw [if_pos (by omega)] at n3
    rw [if_neg (by omega), if_neg (by omega)] at n1
    rw [if_neg (by omega), if_pos (by omega)] at n2
    interval_cases d <;> simp [fan_div_after, n0, n1, n2, n3]
  · rw [if_neg (by omega)] at n0
    rw [if_pos (by omega)] at n3
    rw [if_neg (by omega), if_pos (by omega)] at n1 n2
    interval_cases d <;> simp [fan_div_after, n0, n1, n2, n3]


theorem next_fan_div_eq (rpm : Int) (d : Nat) (hd : d ≤ 3) :
    next_fan_div rpm d =
      some (if div_mod_of rpm (asm58_fan_min_lim.getD d 0) d = 1 then d + 1
        else if div_mod_of rpm (asm58_fan_min_lim.getD d 0) d = -1 then d - 1 else d) := by
  unfold next_fan_div
  rw [lim_of_lt d (by omega)]
  simp only
  rcases div_mod_of_cases rpm (asm58_fan_min_lim.getD d 0) d with h | h | h
  · have h3 := div_mod_of_one _ _ _ h
    rw [h, if_pos (by decide), if_pos rfl, u8_add_one _ (by omega)]
  · have h0 := div_mod_of_neg_one _ _ _ h
    have hu := u8_sub_one d h0 (by omega)
    rw [h, if_pos (by decide), if_neg (by decide), if_pos rfl]
    congr 1
    omega
  · rw [h, if_neg (by decide), if_neg (by decide), if_neg (by decide)]

theorem next_fan_div_fixed (rpm : Int) (d : Nat) (hd : d ≤ 3)
    (h : next_fan_div rpm d = some d) :
    div_mod_of rpm (asm58_fan_min_lim.getD d 0) d = 0 := by
  rw [next_fan_div_eq rpm d hd] at h
  rcases div_mod_of_cases rpm (asm58_fan_min_lim.getD d 0) d with h1 | h1 | h1
  · rw [h1, if_pos rfl] at h
    simp at h
  · have h0 := div_mod_of_neg_one _ _ _ h1
    rw [h1, if_neg (by decide), if_pos rfl] at h
    simp at h
    omega
  · exact h1

/-- The divisor that `show_fan` leaves in `fan_div[n]` is the one given by
`next_fan_div` at the RPM it prints. -/
theorem show_fan_body_next {σ : Type} (bus : Bus σ) (n : Fin 2) (client : Client σ)
    (data : asm58_data) (hd : data.fan_div n ≤ 3) :
    ∃ client1 data1,
      show_fan_body bus n client data =
        some (ASM58_RPM_FROM_REG (data.fan n) (ASM58_FANDIV_FROM_REG (data.fan_div n)),
          client1, data1) ∧
      next_fan_div (ASM58_RPM_FROM_REG (data.fan n) (ASM58_FANDIV_FROM_REG (data.fan_div n)))
        (data.fan_div n) = some (data1.fan_div n) := by
  have hlim := lim_of_lt (data.fan_div n) (by omega)
  rw [next_fan_div_eq _ _ hd]
  rcases div_mod_of_cases
      (ASM58_RPM_FROM_REG (data.fan n) (ASM58_FANDIV_FROM_REG (data.fan_div n)))
      (asm58_fan_min_lim.getD (data.fan_div n) 0) (data.fan_div n) with h | h | h
  · refine ⟨_, _, show_fan_body_up bus n client data _ hlim h, ?_⟩
    rw [h, if_pos rfl, stepped_fan_div_same]
  · refine ⟨_, _, show_fan_body_down bus n client data _ hlim h, ?_⟩
    rw [h, if_neg (by decide), if_pos rfl, stepped_fan_div_same]
  · refine ⟨_, _, show_fan_body_stay bus n client data _ hlim h, ?_⟩
    rw [h, if_neg (by decide), if_neg (by decide)]

/-- C11: with the RPM held constant (any value) and from any starting divisor
exponent `d` in `0..3`, three applications of the transition rule of `show_fan`
reach a divisor in `0..3` at which no transition fires (`div_mod` is 0), and
every further application stays there; and for no RPM does the rule step up at
`e` and down at `e + 1`, so an up-transition is never followed by a
down-transition, nor the reverse. -/
theorem constant_rpm_converges (rpm : Int) (d : Nat) (hd : d ≤ 3) :
    (∃ d1, fan_div_after 3 rpm d = some d1 ∧ d1 ≤ 3 ∧
      div_mod_of rpm (asm58_fan_min_lim.getD d1 0) d1 = 0 ∧
      ∀ j, fan_div_after (3 + j) rpm d = some d1) ∧
    ∀ e lim lim1, asm58_fan_min_lim[e]? = some lim → asm58_fan_min_lim[e + 1]? = some lim1 →
      ¬ (div_mod_of rpm lim e = 1 ∧ div_mod_of rpm lim1 (e + 1) = -1) := by
  constructor
  · obtain ⟨d1, h3, hle, hfix⟩ := fan_div_settles rpm d hd
    refine ⟨d1, h3, hle, next_fan_div_fixed rpm d1 hle hfix, ?_⟩
    intro j
    rw [fan_div_after_add, h3]
    exact fan_div_after_fixed rpm d1 hfix j
  · intro e lim lim1 hl hl1
    have he := lim_index_lt _ _ hl1
    have t0 : Int.tdiv (5 * 5314) 4 = 6642 := by decide
    have t1 : Int.tdiv (5 * 2657) 4 = 3321 := by decide
    have t2 : Int.tdiv (5 * 1328) 4 = 1660 := by decide
    have e0 : asm58_fan_min_lim[0]? = some 5314 := rfl
    have e1 : asm58_fan_min_lim[1]? = some 2657 := rfl
    have e2 : asm58_fan_min_lim[2]? = some 1328 := rfl
    have e3 : asm58_fan_min_lim[3]? = some 664 := rfl
    rintro ⟨hup, hdn⟩
    have he3 : e < 3 := by omega
    interval_cases e
    · rw [e0] at hl; rw [e1] at hl1
      cases hl; cases hl1
      simp only [div_mod_of, t0, t1] at hup hdn
      split_ifs at hup hdn <;> omega
    · rw [e1] at hl; rw [e2] at hl1
      cases hl; cases hl1
      simp only [div_mod_of, t1, t2] at hup hdn
      split_ifs at hup hdn <;> omega
    · rw [e2] at hl; rw [e3] at hl1
      cases hl; cases hl1
      simp only [div_mod_of, t2] at hup hdn
      have t3 : Int.tdiv (5 * 664) 4 = 830 := by decide
      simp only [t3] at hdn
      split_ifs at hup hdn <;> omega

/-- Witness of C11: at 9000 RPM the divisor exponent 3 walks down to 0 in
three steps and stays there. -/
theorem constant_rpm_converges_witness :
    (3 : Nat) ≤ 3 ∧ fan_div_after 3 9000 3 = some 0 ∧ fan_div_after 7 9000 3 = some 0 := by
  obtain ⟨⟨d1, h3, -, -, hj⟩, -⟩ := constant_rpm_converges 9000 3 (by decide)
  have h0 : fan_div_after 3 9000 3 = some 0 := by decide
  have hd1 : d1 = 0 := by
    rw [h0] at h3
    exact (Option.some.inj h3).symm
  subst hd1
  exact ⟨by decide, h3, hj 4⟩


theorem u8_cast (f : Nat) (h : f < 256) : u8 (f : Int) = f := by
  unfold u8; omega

/-- Unpacking the byte written by `show_fan` gives the two low bits of each
in-memory divisor. -/
theorem unpack_pack_mod (n : Fin 2) (a b : Nat) :
    fandiv_unpack n ((fandiv_pack a b : Nat) : Int) = if n = 0 then a % 4 else b % 4 := by
  have ha : a % 4 ≤ 3 := by omega
  have hb : b % 4 ≤ 3 := by omega
  obtain ⟨h0, h1⟩ := unpack_pack (a % 4) (b % 4) ha hb
  rw [fandiv_pack_mod]
  unfold fandiv_unpack
  split_ifs
  · exact h0
  · exact h1

theorem burst_dev_regfile (jiffies : Nat) (client : Client (Nat → Int)) (data : asm58_data) :
    (refresh_burst regfile_bus jiffies client data).1.dev = client.dev := by
  simp [refresh_burst, List.foldl, read_in_step, read_fandiv_step, read_fan_temp_step,
    asm58_read_byte, regfile_bus]

theorem burst_dev_deaf (jiffies : Nat) (client : Client (Nat → Int)) (data : asm58_data) :
    (refresh_burst deaf_bus jiffies client data).1.dev = client.dev := by
  simp [refresh_burst, List.foldl, read_in_step, read_fandiv_step, read_fan_temp_step,
    asm58_read_byte, deaf_bus]

theorem deaf_answers (regs : Nat → Int) (l : List Nat) :
    bus_answers deaf_bus regs l = l.map regs := by
  induction l with
  | nil => rfl
  | cons r l ih =>
    simp only [bus_answers, List.map_cons]
    exact congrArg _ ih

/-- On a register-file chip a refresh loads, for channel `n`, the count held by
the fan register and the divisor field held by register `0xA1`. -/
theorem burst_regfile_channel (jiffies : Nat) (n : Fin 2) (client : Client (Nat → Int))
    (data : asm58_data) :
    (refresh_burst regfile_bus jiffies client data).2.fan n
        = u8 (client.dev (ASM58_REG_FAN n.val)) ∧
    (refresh_burst regfile_bus jiffies client data).2.fan_div n
        = fandiv_unpack n (client.dev ASM58_REG_FANDIV) := by
  rw [burst_fields, regfile_answers]
  fin_cases n <;> exact ⟨rfl, rfl⟩


set_option maxRecDepth 100000 in
theorem slow_fan_steps_up : ∀ f : Fin 256,
    4 * ASM58_RPM_FROM_REG f.val (ASM58_FANDIV_FROM_REG 0) < 5 * 5314 →
    ∀ d : Fin 3,
      div_mod_of (ASM58_RPM_FROM_REG f.val (ASM58_FANDIV_FROM_REG d.val))
        (asm58_fan_min_lim.getD d.val 0) d.val = 1 := by
  decide

theorem unpack_pack_stepped (data : asm58_data) (n : Fin 2) (x : Nat) (hx : x ≤ 3) :
    fandiv_unpack n
      ((fandiv_pack ((stepped data n x).fan_div 0) ((stepped data n x).fan_div 1) : Nat) : Int)
      = x := by
  rw [unpack_pack_mod]
  have hm : x % 4 = x := Nat.mod_eq_of_lt (by omega)
  fin_cases n
  · show (stepped data 0 x).fan_div 0 % 4 = x
    rw [stepped_fan_div_same, hm]
  · show (stepped data 1 x).fan_div 1 % 4 = x
    rw [stepped_fan_div_same, hm]

theorem regfile_write_dev (client : Client (Nat → Int)) (reg value : Nat) :
    (asm58_write_byte regfile_bus client reg value).2.dev
      = Function.update client.dev reg (value : Int) := rfl

theorem fan_reg_ne_fandiv (n : Fin 2) : ASM58_REG_FAN n.val ≠ ASM58_REG_FANDIV := by
  fin_cases n <;> decide

/-- One fan read on a register-file chip that holds the count `f` and the
divisor `d` for channel `n`, the cache agreeing with the chip: when the rule
steps up, the call returns, and chip and cache agree on `d + 1` afterwards. -/
theorem regfile_read_steps_up (k : Kconfig) (n : Fin 2) (f d jiffies stamp : Nat)
    (client : Client (Nat → Int)) (data : asm58_data) (hf : f < 256)
    (hup : div_mod_of (ASM58_RPM_FROM_REG f (ASM58_FANDIV_FROM_REG d))
      (asm58_fan_min_lim.getD d 0) d = 1)
    (hreg : client.dev (ASM58_REG_FAN n.val) = (f : Int))
    (hdiv : fandiv_unpack n (client.dev ASM58_REG_FANDIV) = d)
    (hfan : data.fan n = f) (hd : data.fan_div n = d) :
    ∃ r, show_fan k regfile_bus jiffies stamp n client data = some r ∧
      r.2.1.dev (ASM58_REG_FAN n.val) = (f : Int) ∧
      fandiv_unpack n (r.2.1.dev ASM58_REG_FANDIV) = d + 1 ∧
      r.2.2.fan n = f ∧ r.2.2.fan_div n = d + 1 := by
  have h3 := div_mod_of_one _ _ _ hup
  have hu : (asm58_update_device k regfile_bus jiffies stamp client data).1.dev = client.dev ∧
      (asm58_update_device k regfile_bus jiffies stamp client data).2.fan n = f ∧
      (asm58_update_device k regfile_bus jiffies stamp client data).2.fan_div n = d := by
    unfold asm58_update_device
    split_ifs
    · obtain ⟨h1, h2⟩ := burst_regfile_channel stamp n client data
      exact ⟨burst_dev_regfile _ _ _, by rw [h1, hreg, u8_cast f hf], by rw [h2, hdiv]⟩
    · exact ⟨rfl, hfan, hd⟩
  have hshow : show_fan k regfile_bus jiffies stamp n client data =
      show_fan_body regfile_bus n (asm58_update_device k regfile_bus jiffies stamp client data).1
        (asm58_update_device k regfile_bus jiffies stamp client data).2 := rfl
  rw [hshow]
  generalize asm58_update_device k regfile_bus jiffies stamp client data = u at hu
  obtain ⟨hdev, hfan1, hd1⟩ := hu
  have hlim := lim_of_lt d (by omega)
  have hbody := show_fan_body_up regfile_bus n u.1 u.2
    (asm58_fan_min_lim.getD d 0) (by rw [hd1]; exact hlim) (by rw [hfan1, hd1]; exact hup)
  refine ⟨_, hbody, ?_, ?_, hfan1, ?_⟩
  · show (asm58_write_byte regfile_bus u.1 ASM58_REG_FANDIV _).2.dev (ASM58_REG_FAN n.val) = _
    rw [regfile_write_dev, Function.update_noteq (fan_reg_ne_fandiv n), hdev]
    exact hreg
  · show fandiv_unpack n
      ((asm58_write_byte regfile_bus u.1 ASM58_REG_FANDIV _).2.dev ASM58_REG_FANDIV) = _
    rw [regfile_write_dev, Function.update_same, hd1]
    exact unpack_pack_stepped u.2 n (d + 1) (by omega)
  · show (stepped u.2 n (u.2.fan_div n + 1)).fan_div n = d + 1
    rw [stepped_fan_div_same, hd1]


/-- C12: on a chip that keeps returning the count `f` for channel `n` and
returns from register `0xA1` the last value written, starting at divisor
exponent 0 (in the cache and on the chip) with an RPM `1350000 / f` (0 for the
sentinel counts) below `limit[0] * 5 / 4`, three successive `show_fan` reads
all return and step the divisor 0, 1, 2, 3: after the third read the cached
divisor and the chip's divisor field are both 3: the divisor saturates, and
no such count stops earlier in a band `limit[d] * 5 / 4 ≤ rpm ≤ limit[d] * 3`. -/
theorem fixed_count_reaches_top (k : Kconfig) (n : Fin 2) (f j1 s1 j2 s2 j3 s3 : Nat)
    (client : Client (Nat → Int)) (data : asm58_data) (hf : f < 256)
    (hslow : (ASM58_RPM_FROM_REG f (ASM58_FANDIV_FROM_REG 0) : ℚ) < ((5314 : Int) : ℚ) * 5 / 4)
    (hreg : client.dev (ASM58_REG_FAN n.val) = (f : Int))
    (hdiv : fandiv_unpack n (client.dev ASM58_REG_FANDIV) = 0)
    (hfan : data.fan n = f) (hd : data.fan_div n = 0) :
    ∃ client1 data1,
      fan_reads k regfile_bus n [(j1, s1), (j2, s2), (j3, s3)] client data
        = some (client1, data1) ∧
      data1.fan_div n = 3 ∧ fandiv_unpack n (client1.dev ASM58_REG_FANDIV) = 3 ∧
      data1.fan n = f := by
  have hs := (exact_up_threshold _ _).mp hslow
  have hup := slow_fan_steps_up ⟨f, hf⟩ hs
  obtain ⟨r1, e1, a1, b1, c1, d1⟩ :=
    regfile_read_steps_up k n f 0 j1 s1 client data hf (hup 0) hreg hdiv hfan hd
  obtain ⟨r2, e2, a2, b2, c2, d2⟩ :=
    regfile_read_steps_up k n f 1 j2 s2 r1.2.1 r1.2.2 hf (hup 1) a1 b1 c1 d1
  obtain ⟨r3, e3, a3, b3, c3, d3⟩ :=
    regfile_read_steps_up k n f 2 j3 s3 r2.2.1 r2.2.2 hf (hup 2) a2 b2 c2 d2
  refine ⟨r3.2.1, r3.2.2, ?_, d3, b3, c3⟩
  simp only [fan_reads, e1, e2, e3]

/-- Witness of C12: channel 0, count 250 (5400 RPM at exponent 0), from the
attach-time data on a chip whose registers hold 250 in `0x28` and 0 elsewhere. -/
theorem fixed_count_reaches_top_witness :
    ((250 : Nat) < 256 ∧
      ASM58_RPM_FROM_REG 250 (ASM58_FANDIV_FROM_REG 0) = 5400 ∧
      fandiv_unpack 0 ((new_client (fun reg => if reg = 0x28 then (250 : Int) else 0)).dev
        ASM58_REG_FANDIV) = 0 ∧
      (cached 250 0).fan 0 = 250 ∧ (cached 250 0).fan_div 0 = 0) ∧
    ∃ client1 data1,
      fan_reads sample_kconfig regfile_bus 0 [(1001, 1001), (1002, 1004), (1005, 1007)]
        (new_client (fun reg => if reg = 0x28 then (250 : Int) else 0)) (cached 250 0)
        = some (client1, data1) ∧
      data1.fan_div 0 = 3 := by
  obtain ⟨client1, data1, h1, h2, -, -⟩ :=
    fixed_count_reaches_top sample_kconfig 0 250 1001 1001 1002 1004 1005 1007
      (new_client (fun reg => if reg = 0x28 then (250 : Int) else 0)) (cached 250 0)
      (by decide) (by rw [exact_up_threshold]; decide) rfl (by decide) rfl rfl
  exact ⟨⟨by decide, by decide, by decide, rfl, rfl⟩, client1, data1, h1, h2⟩


/-- The three possible outcomes of the part of `show_fan` that follows the
refresh, on data whose divisor for channel `n` is in `0..3`: the printed value
is the RPM of the cached count under the cached divisor, and the data are left
alone or stepped by one with one write issued. -/
theorem show_fan_body_outcomes {σ : Type} (bus : Bus σ) (n : Fin 2) (client : Client σ)
    (data : asm58_data) (hd : data.fan_div n ≤ 3) :
    show_fan_body bus n client data =
        some (ASM58_RPM_FROM_REG (data.fan n) (ASM58_FANDIV_FROM_REG (data.fan_div n)),
          client, data) ∨
    (data.fan_div n < 3 ∧
      show_fan_body bus n client data =
        some (ASM58_RPM_FROM_REG (data.fan n) (ASM58_FANDIV_FROM_REG (data.fan_div n)),
          (asm58_write_byte bus client ASM58_REG_FANDIV
            (fandiv_pack ((stepped data n (data.fan_div n + 1)).fan_div 0)
              ((stepped data n (data.fan_div n + 1)).fan_div 1))).2,
          stepped data n (data.fan_div n + 1))) ∨
    (0 < data.fan_div n ∧
      show_fan_body bus n client data =
        some (ASM58_RPM_FROM_REG (data.fan n) (ASM58_FANDIV_FROM_REG (data.fan_div n)),
          (asm58_write_byte bus client ASM58_REG_FANDIV
            (fandiv_pack ((stepped data n (data.fan_div n - 1)).fan_div 0)
              ((stepped data n (data.fan_div n - 1)).fan_div 1))).2,
          stepped data n (data.fan_div n - 1))) := by
  have hlim := lim_of_lt (data.fan_div n) (by omega)
  rcases div_mod_of_cases
      (ASM58_RPM_FROM_REG (data.fan n) (ASM58_FANDIV_FROM_REG (data.fan_div n)))
      (asm58_fan_min_lim.getD (data.fan_div n) 0) (data.fan_div n) with h | h | h
  · exact Or.inr (Or.inl ⟨div_mod_of_one _ _ _ h, show_fan_body_up bus n client data _ hlim h⟩)
  · exact Or.inr (Or.inr
      ⟨div_mod_of_neg_one _ _ _ h, show_fan_body_down bus n client data _ hlim h⟩)
  · exact Or.inl (show_fan_body_stay bus n client data _ hlim h)

/-- C13: the value `show_fan` prints is `ASM58_RPM_FROM_REG(fan[n], 1 << d)`
for the count and the divisor `d` held by the client data when
`asm58_update_device` returns, before any transition of the call: this holds
for the part after the refresh on every data with `d` in `0..3`, and for the
whole call, whether the divisor is then stepped up, down or not at all. -/
theorem reported_rpm_is_pre_transition {σ : Type} (k : Kconfig) (bus : Bus σ)
    (jiffies stamp : Nat) (n : Fin 2) (client : Client σ) (data : asm58_data) :
    (data.fan_div n ≤ 3 →
      ∃ client1 data1,
        show_fan_body bus n client data =
          some (ASM58_RPM_FROM_REG (data.fan n) (ASM58_FANDIV_FROM_REG (data.fan_div n)),
            client1, data1)) ∧
    ((asm58_update_device k bus jiffies stamp client data).2.fan_div n ≤ 3 →
      ∃ client1 data1,
        show_fan k bus jiffies stamp n client data =
          some (ASM58_RPM_FROM_REG ((asm58_update_device k bus jiffies stamp client data).2.fan n)
              (ASM58_FANDIV_FROM_REG
                ((asm58_update_device k bus jiffies stamp client data).2.fan_div n)),
            client1, data1)) := by
  have key : ∀ (c : Client σ) (x : asm58_data), x.fan_div n ≤ 3 →
      ∃ client1 data1, show_fan_body bus n c x =
        some (ASM58_RPM_FROM_REG (x.fan n) (ASM58_FANDIV_FROM_REG (x.fan_div n)),
          client1, data1) := by
    intro c x hx
    rcases show_fan_body_outcomes bus n c x hx with h | ⟨-, h⟩ | ⟨-, h⟩
    · exact ⟨_, _, h⟩
    · exact ⟨_, _, h⟩
    · exact ⟨_, _, h⟩
  exact ⟨key client data, key _ _⟩

/-- Witness of C13: count 254 at exponent 2 steps the divisor up to 3, and the
printed value is still the 1328 RPM computed under exponent 2 (under exponent
3 the same count reads 664). -/
theorem reported_rpm_is_pre_transition_witness :
    (cached 254 2).fan_div 0 ≤ 3 ∧
    ASM58_RPM_FROM_REG 254 (ASM58_FANDIV_FROM_REG 3) = 664 ∧
    ∃ client1 data1,
      show_fan_body eio_bus 0 (new_client ()) (cached 254 2) = some (1328, client1, data1) :=
  ⟨by decide, by decide,
    (reported_rpm_is_pre_transition sample_kconfig eio_bus 0 0 0 (new_client ())
      (cached 254 2)).1 (by decide)⟩

/-- C14: the client data that `show_fan` leaves do not depend on the transport:
on data whose divisor for channel `n` is in `0..3`, two calls over any two
buses (one whose write to `0xA1` succeeds, one whose write fails) print the
same value and leave the same data, which are the data before the call or,
after a transition, those data with `fan_div[n]` stepped by one and `valid`
cleared, every other field as before. -/
theorem failed_write_keeps_memory {σ τ : Type} (bus1 : Bus σ) (bus2 : Bus τ) (n : Fin 2)
    (client1 : Client σ) (client2 : Client τ) (data : asm58_data)
    (hd : data.fan_div n ≤ 3) :
    ∃ rpm out1 out2 data1,
      show_fan_body bus1 n client1 data = some (rpm, out1, data1) ∧
      show_fan_body bus2 n client2 data = some (rpm, out2, data1) ∧
      (data1 = data ∨ data1 = stepped data n (data.fan_div n + 1) ∨
        (0 < data.fan_div n ∧ data1 = stepped data n (data.fan_div n - 1))) := by
  have hlim := lim_of_lt (data.fan_div n) (by omega)
  rcases div_mod_of_cases
      (ASM58_RPM_FROM_REG (data.fan n) (ASM58_FANDIV_FROM_REG (data.fan_div n)))
      (asm58_fan_min_lim.getD (data.fan_div n) 0) (data.fan_div n) with h | h | h
  · exact ⟨_, _, _, _, show_fan_body_up bus1 n client1 data _ hlim h,
      show_fan_body_up bus2 n client2 data _ hlim h, Or.inr (Or.inl rfl)⟩
  · exact ⟨_, _, _, _, show_fan_body_down bus1 n client1 data _ hlim h,
      show_fan_body_down bus2 n client2 data _ hlim h,
      Or.inr (Or.inr ⟨div_mod_of_neg_one _ _ _ h, rfl⟩)⟩
  · exact ⟨_, _, _, _, show_fan_body_stay bus1 n client1 data _ hlim h,
      show_fan_body_stay bus2 n client2 data _ hlim h, Or.inl rfl⟩

/-- Witness of C14: count 254 at exponent 2, over a chip that stores the write
and over a bus on which every transaction fails. -/
theorem failed_write_keeps_memory_witness :
    (cached 254 2).fan_div 0 ≤ 3 ∧
    (asm58_write_byte regfile_bus (new_client (fun _ => 0)) ASM58_REG_FANDIV 0xB0).1 = 0 ∧
    (asm58_write_byte eio_bus (new_client ()) ASM58_REG_FANDIV 0xB0).1 = -5 ∧
    ∃ rpm out1 out2 data1,
      show_fan_body regfile_bus 0 (new_client (fun _ => 0)) (cached 254 2)
        = some (rpm, out1, data1) ∧
      show_fan_body eio_bus 0 (new_client ()) (cached 254 2) = some (rpm, out2, data1) := by
  obtain ⟨rpm, out1, out2, data1, h1, h2, -⟩ :=
    failed_write_keeps_memory regfile_bus eio_bus 0 (new_client (fun _ => 0)) (new_client ())
      (cached 254 2) (by decide)
  exact ⟨by decide, by decide, by decide, rpm, out1, out2, data1, h1, h2⟩


/-- C15 (counterexample): count 254 at exponent 2 makes `show_fan` step the
divisor and write `0xB0` to `0xA1`; over a chip whose write returns `-EIO` and
over the same chip whose write returns 0 the call gives the very same result
(printed value, client, data), so nothing in it tells the failed write from
the successful one. -/
theorem failed_write_unreported_counterexample :
    (asm58_write_byte (with_write_status regfile_bus (-5)) (new_client (fun _ => 0))
      ASM58_REG_FANDIV 0xB0).1 = -5 ∧
    (asm58_write_byte regfile_bus (new_client (fun _ => 0)) ASM58_REG_FANDIV 0xB0).1 = 0 ∧
    (show_fan sample_kconfig regfile_bus 1001 1001 0 (new_client (fun _ => 0)) (cached 254 2)).map
        (fun r => (r.1, r.2.1.log, r.2.2.fan_div 0)) =
      some (1328, [BusOp.wr 0xA1 0xB0], 3) ∧
    show_fan sample_kconfig (with_write_status regfile_bus (-5)) 1001 1001 0
        (new_client (fun _ => 0)) (cached 254 2) =
      show_fan sample_kconfig regfile_bus 1001 1001 0 (new_client (fun _ => 0)) (cached 254 2) :=
  ⟨by decide, by decide, by decide, rfl⟩

/-- C15 (amended): a failed write of the divisor register is not reported:
`show_fan` discards what `asm58_write_byte` returns, so for every bus and every
status the write may return, the result of the call (printed RPM, bus
operations issued, client data left) is the same as when the write returns
that it succeeded. -/
theorem write_status_is_discarded {σ : Type} (k : Kconfig) (bus : Bus σ) (status : Int)
    (jiffies stamp : Nat) (n : Fin 2) (client : Client σ) (data : asm58_data) :
    show_fan k (with_write_status bus status) jiffies stamp n client data =
      show_fan k bus jiffies stamp n client data ∧
    show_fan k (with_write_status bus status) jiffies stamp n client data =
      show_fan k (with_write_status bus 0) jiffies stamp n client data :=
  ⟨rfl, rfl⟩

/-- C16 (counterexample): the chip holds `0xA0` (both divisors 2) and count
254; the fan read steps the cached divisor to 3, the write fails and does not
land, and the refresh forced by the next call puts `fan_div[0]` back to 2. -/
theorem lost_write_counterexample :
    (show_fan sample_kconfig deaf_bus 1001 1001 0
        (new_client (fun reg => if reg = 0xA1 then 0xA0 else if reg = 0x28 then 254 else 0))
        (cached 254 2)).map
      (fun r => (r.2.2.fan_div 0, r.2.2.valid, r.2.1.dev 0xA1,
        (asm58_update_device sample_kconfig deaf_bus 1002 1002 r.2.1 r.2.2).2.fan_div 0)) =
      some (3, false, 0xA0, 2) := by
  decide


theorem update_of_invalid {σ : Type} (k : Kconfig) (bus : Bus σ) (jiffies stamp : Nat)
    (client : Client σ) (data : asm58_data) (h : data.valid = false) :
    asm58_update_device k bus jiffies stamp client data
      = refresh_burst bus stamp client data := by
  unfold asm58_update_device needs_update
  rw [h]
  rfl

theorem burst_deaf_fan_div (jiffies : Nat) (client : Client (Nat → Int)) (data : asm58_data)
    (m : Fin 2) :
    (refresh_burst deaf_bus jiffies client data).2.fan_div m
      = fandiv_unpack m (client.dev ASM58_REG_FANDIV) := by
  rw [burst_fields, deaf_answers]
  fin_cases m <;> rfl

theorem unpack_pack_channel (m : Fin 2) (a b : Nat) (ha : a ≤ 3) (hb : b ≤ 3) :
    fandiv_unpack m ((fandiv_pack a b : Nat) : Int) = if m = 0 then a else b := by
  rw [unpack_pack_mod, Nat.mod_eq_of_lt (by omega : a < 4), Nat.mod_eq_of_lt (by omega : b < 4)]

/-- C16 (amended): after a `show_fan` transition whose write did not land, the
register `0xA1` still holding the old packed divisors, the refresh forced by
`valid = 0` reloads both divisors from the register: `fan_div[n]` after that
refresh is the old divisor held by the chip, not the stepped value, and the
readings are derived under the chip's divisor. -/
theorem lost_write_reloads_chip_divisor (k : Kconfig) (n : Fin 2) (jiffies stamp : Nat)
    (client : Client (Nat → Int)) (data : asm58_data)
    (h0 : data.fan_div 0 ≤ 3) (h1 : data.fan_div 1 ≤ 3)
    (hchip : client.dev ASM58_REG_FANDIV
      = ((fandiv_pack (data.fan_div 0) (data.fan_div 1) : Nat) : Int))
    (htr : div_mod_of
      (ASM58_RPM_FROM_REG (data.fan n) (ASM58_FANDIV_FROM_REG (data.fan_div n)))
      (asm58_fan_min_lim.getD (data.fan_div n) 0) (data.fan_div n) ≠ 0) :
    ∃ r, show_fan_body deaf_bus n client data = some r ∧
      r.2.2.fan_div n ≠ data.fan_div n ∧ r.2.2.valid = false ∧
      r.2.1.dev = client.dev ∧
      ∀ m, (asm58_update_device k deaf_bus jiffies stamp r.2.1 r.2.2).2.fan_div m
        = data.fan_div m := by
  have hall : ∀ m, data.fan_div m ≤ 3 := by
    intro m; fin_cases m
    · exact h0
    · exact h1
  have hlim := lim_of_lt (data.fan_div n) (by have := hall n; omega)
  have hre : ∀ (x : asm58_data) (c : Client (Nat → Int)), x.valid = false →
      c.dev = client.dev →
      ∀ m, (asm58_update_device k deaf_bus jiffies stamp c x).2.fan_div m = data.fan_div m := by
    intro x c hx hc m
    rw [update_of_invalid k deaf_bus jiffies stamp c x hx, burst_deaf_fan_div, hc, hchip,
      unpack_pack_channel m _ _ h0 h1]
    fin_cases m <;> rfl
  rcases div_mod_of_cases
      (ASM58_RPM_FROM_REG (data.fan n) (ASM58_FANDIV_FROM_REG (data.fan_div n)))
      (asm58_fan_min_lim.getD (data.fan_div n) 0) (data.fan_div n) with h | h | h
  · refine ⟨_, show_fan_body_up deaf_bus n client data _ hlim h, ?_, rfl, rfl,
      hre _ _ rfl rfl⟩
    show (stepped data n (data.fan_div n + 1)).fan_div n ≠ data.fan_div n
    rw [stepped_fan_div_same]; omega
  · have hpos := div_mod_of_neg_one _ _ _ h
    refine ⟨_, show_fan_body_down deaf_bus n client data _ hlim h, ?_, rfl, rfl,
      hre _ _ rfl rfl⟩
    show (stepped data n (data.fan_div n - 1)).fan_div n ≠ data.fan_div n
    rw [stepped_fan_div_same]; omega
  · exact absurd h htr

/-- Witness of C16 (amended): the chip holds `0xA0` (both divisors 2), the
cache holds count 254 under exponent 2; after the lost write the refresh gives
`fan_div[0] = 2` again. -/
theorem lost_write_reloads_chip_divisor_witness :
    ((cached 254 2).fan_div 0 ≤ 3 ∧ (cached 254 2).fan_div 1 ≤ 3 ∧
      (new_client (fun reg => if reg = 0xA1 then (0xA0 : Int) else 0)).dev ASM58_REG_FANDIV
        = ((fandiv_pack ((cached 254 2).fan_div 0) ((cached 254 2).fan_div 1) : Nat) : Int) ∧
      div_mod_of (ASM58_RPM_FROM_REG ((cached 254 2).fan 0)
          (ASM58_FANDIV_FROM_REG ((cached 254 2).fan_div 0)))
        (asm58_fan_min_lim.getD ((cached 254 2).fan_div 0) 0) ((cached 254 2).fan_div 0) ≠ 0) ∧
    ∃ r, show_fan_body deaf_bus 0
        (new_client (fun reg => if reg = 0xA1 then (0xA0 : Int) else 0)) (cached 254 2)
        = some r ∧
      r.2.2.fan_div 0 ≠ 2 ∧
      (asm58_update_device sample_kconfig deaf_bus 1002 1002 r.2.1 r.2.2).2.fan_div 0 = 2 := by
  obtain ⟨r, hr, hne, -, -, hall⟩ :=
    lost_write_reloads_chip_divisor sample_kconfig 0 1002 1002
      (new_client (fun reg => if reg = 0xA1 then (0xA0 : Int) else 0)) (cached 254 2)
      (by decide) (by decide) (by decide) (by decide)
  exact ⟨⟨by decide, by decide, by decide, by decide⟩, r, hr, hne, hall 0⟩


theorem u8_byte (a : Int) (h0 : 0 ≤ a) (h1 : a < 256) : ((u8 a : Nat) : Int) = a := by
  unfold u8; omega

theorem unpack_byte (a : Int) (h0 : 0 ≤ a) (h1 : a < 256) :
    fandiv_unpack0 a = (a.toNat >>> 4) &&& 3 ∧ fandiv_unpack1 a = a.toNat >>> 6 := by
  obtain ⟨b, rfl⟩ := Int.eq_ofNat_of_zero_le h0
  have hb : b < 256 := by omega
  constructor
  · show u8 (((b >>> 4 &&& 3 : Nat) : Int)) = ((b : Int).toNat >>> 4) &&& 3
    rw [u8_cast _ (lt_of_le_of_lt Nat.and_le_right (by decide)), Int.toNat_ofNat]
  · show u8 (((b >>> 6 : Nat) : Int)) = (b : Int).toNat >>> 6
    have hs : b >>> 6 < 256 := by
      rw [Nat.shiftRight_eq_div_pow]
      exact lt_of_le_of_lt (Nat.div_le_self _ _) hb
    rw [u8_cast _ hs, Int.toNat_ofNat]

theorem bus_answers_length {σ : Type} (bus : Bus σ) (dev : σ) (l : List Nat) :
    (bus_answers bus dev l).length = l.length := by
  induction l generalizing dev with
  | nil => rfl
  | cons r l ih => simp [bus_answers, ih]

theorem burst_answer_mem {σ : Type} (bus : Bus σ) (dev : σ) (i : Nat) (hi : i < 9) :
    (bus_answers bus dev burst_regs).getD i 0 ∈ bus_answers bus dev burst_regs := by
  have hlen : (bus_answers bus dev burst_regs).length = 9 := by
    rw [bus_answers_length]; rfl
  rw [List.getD_eq_getElem _ _ (by omega)]
  exact List.getElem_mem _


/-- C17 (counterexample): the burst that refreshes the attach-time data reads
the fan count and the temperature of channel 0 before those of channel 1
(`0x28, 0x27, 0x29, 0x13`), which is not the order fans first, temperatures
second (`0x28, 0x29, 0x27, 0x13`). -/
theorem burst_order_counterexample :
    (asm58_update_device sample_kconfig regfile_bus 0 0 (new_client (fun _ => 0))
        asm58_probe).1.log =
      [BusOp.rd 0x20, BusOp.rd 0x22, BusOp.rd 0x23, BusOp.rd 0x24, BusOp.rd 0xA1,
        BusOp.rd 0x28, BusOp.rd 0x27, BusOp.rd 0x29, BusOp.rd 0x13] ∧
    (asm58_update_device sample_kconfig regfile_bus 0 0 (new_client (fun _ => 0))
        asm58_probe).1.log ≠
      [BusOp.rd 0x20, BusOp.rd 0x22, BusOp.rd 0x23, BusOp.rd 0x24, BusOp.rd 0xA1,
        BusOp.rd 0x28, BusOp.rd 0x29, BusOp.rd 0x27, BusOp.rd 0x13] := by
  decide

/-- C17 (amended): a due refresh issues exactly nine bus reads, in the order
`0x20, 0x22, 0x23, 0x24` (the voltages, `0x20` for index 0, else
`0x20 + i + 1`), `0xA1` (the packed divisors), then per channel the fan count
and the temperature: `0x28, 0x27, 0x29, 0x13`.  When every read returns a byte,
each raw field holds the byte returned for its register, the two divisors hold
bits 4-5 and bits 6-7 of the byte read from `0xA1`, `valid` is set and
`last_updated` is the current tick, the tick counter as read at the stamp. -/
theorem refresh_burst_reads_and_fields {σ : Type} (k : Kconfig) (bus : Bus σ)
    (jiffies stamp : Nat) (client : Client σ) (data : asm58_data)
    (hdue : needs_update k jiffies data = true)
    (hok : ∀ a ∈ bus_answers bus client.dev burst_regs, 0 ≤ a ∧ a < 256) :
    (asm58_update_device k bus jiffies stamp client data).1.log =
      client.log ++
        [BusOp.rd 0x20, BusOp.rd 0x22, BusOp.rd 0x23, BusOp.rd 0x24, BusOp.rd 0xA1,
          BusOp.rd 0x28, BusOp.rd 0x27, BusOp.rd 0x29, BusOp.rd 0x13] ∧
    (ASM58_REG_IN 0 = 0x20 ∧ ∀ i, i ≠ 0 → ASM58_REG_IN i = 0x20 + i + 1) ∧
    (∀ i : Fin 4, (((asm58_update_device k bus jiffies stamp client data).2.in_ i : Nat) : Int)
      = (bus_answers bus client.dev burst_regs).getD i.val 0) ∧
    (((asm58_update_device k bus jiffies stamp client data).2.fan 0 : Nat) : Int)
      = (bus_answers bus client.dev burst_regs).getD 5 0 ∧
    (((asm58_update_device k bus jiffies stamp client data).2.temp 0 : Nat) : Int)
      = (bus_answers bus client.dev burst_regs).getD 6 0 ∧
    (((asm58_update_device k bus jiffies stamp client data).2.fan 1 : Nat) : Int)
      = (bus_answers bus client.dev burst_regs).getD 7 0 ∧
    (((asm58_update_device k bus jiffies stamp client data).2.temp 1 : Nat) : Int)
      = (bus_answers bus client.dev burst_regs).getD 8 0 ∧
    (asm58_update_device k bus jiffies stamp client data).2.fan_div 0
      = (((bus_answers bus client.dev burst_regs).getD 4 0).toNat >>> 4) &&& 3 ∧
    (asm58_update_device k bus jiffies stamp client data).2.fan_div 1
      = ((bus_answers bus client.dev burst_regs).getD 4 0).toNat >>> 6 ∧
    (asm58_update_device k bus jiffies stamp client data).2.valid = true ∧
    (asm58_update_device k bus jiffies stamp client data).2.last_updated = stamp := by
  have hupd : asm58_update_device k bus jiffies stamp client data =
      refresh_burst bus stamp client data := by
    unfold asm58_update_device
    rw [if_pos hdue]
  have hb : ∀ i, i < 9 →
      0 ≤ (bus_answers bus client.dev burst_regs).getD i 0 ∧
        (bus_answers bus client.dev burst_regs).getD i 0 < 256 :=
    fun i hi => hok _ (burst_answer_mem bus client.dev i hi)
  rw [hupd, burst_log, burst_fields]
  refine ⟨rfl, ⟨rfl, ?_⟩, ?_, ?_, ?_, ?_, ?_, ?_, ?_, rfl, rfl⟩
  · intro i hi
    unfold ASM58_REG_IN
    rw [if_neg hi]
  · intro i
    exact u8_byte _ (hb i.val (by omega)).1 (hb i.val (by omega)).2
  · exact u8_byte _ (hb 5 (by omega)).1 (hb 5 (by omega)).2
  · exact u8_byte _ (hb 6 (by omega)).1 (hb 6 (by omega)).2
  · exact u8_byte _ (hb 7 (by omega)).1 (hb 7 (by omega)).2
  · exact u8_byte _ (hb 8 (by omega)).1 (hb 8 (by omega)).2
  · exact (unpack_byte _ (hb 4 (by omega)).1 (hb 4 (by omega)).2).1
  · exact (unpack_byte _ (hb 4 (by omega)).1 (hb 4 (by omega)).2).2

/-- Witness of C17 (amended): the attach-time data are due for a refresh; on a
chip whose registers all hold `0x5A` every read returns a byte, and the burst
loads 90 into `temp[1]` and the fields 1 and 1 of `0x5A` into the divisors. -/
theorem refresh_burst_reads_and_fields_witness :
    needs_update sample_kconfig 7 asm58_probe = true ∧
    (∀ a ∈ bus_answers regfile_bus (new_client (fun _ => (0x5A : Int))).dev burst_regs,
      0 ≤ a ∧ a < 256) ∧
    (((asm58_update_device sample_kconfig regfile_bus 7 7 (new_client (fun _ => (0x5A : Int)))
      asm58_probe).2.temp 1 : Nat) : Int) = 0x5A ∧
    (asm58_update_device sample_kconfig regfile_bus 7 7 (new_client (fun _ => (0x5A : Int)))
      asm58_probe).2.fan_div 1 = 1 := by
  have hok : ∀ a ∈ bus_answers regfile_bus (new_client (fun _ => (0x5A : Int))).dev burst_regs,
      0 ≤ a ∧ a < 256 := by
    intro a ha
    rw [regfile_answers] at ha
    simp [burst_regs, new_client] at ha
    subst ha
    decide
  have h := refresh_burst_reads_and_fields sample_kconfig regfile_bus 7 7
    (new_client (fun _ => (0x5A : Int))) asm58_probe (by decide) hok
  refine ⟨by decide, hok, ?_, ?_⟩
  · rw [h.2.2.2.2.2.2.1]; rfl
  · rw [h.2.2.2.2.2.2.2.2.1]; rfl


theorem fandiv_from_reg_eq (d : Nat) : ASM58_FANDIV_FROM_REG d = ((2 ^ d : Nat) : Int) := by
  unfold ASM58_FANDIV_FROM_REG
  rw [Nat.one_shiftLeft]

/-- C19: on client data with a count below 256 and `fan_div[n]` in `0..3`,
every operation of `show_fan` is defined: the index into the four-entry table
`asm58_fan_min_lim` is in bounds, the shift `1 << fan_div[n]` is between 1 and
8, the divisor `f * 2 ^ d` of `ASM58_RPM_FROM_REG` is non-zero (and fits an
`int`) whenever the division is evaluated, `fan_div[n] + div_mod` stays
within `0..3`, and the call returns. -/
theorem show_fan_defined {σ : Type} (bus : Bus σ) (n : Fin 2) (client : Client σ)
    (data : asm58_data) (hf : data.fan n < 256) (hd : data.fan_div n ≤ 3) :
    data.fan_div n < asm58_fan_min_lim.length ∧
    (∃ lim, asm58_fan_min_lim[data.fan_div n]? = some lim ∧
      0 ≤ (data.fan_div n : Int) + div_mod_of
        (ASM58_RPM_FROM_REG (data.fan n) (ASM58_FANDIV_FROM_REG (data.fan_div n)))
        lim (data.fan_div n) ∧
      (data.fan_div n : Int) + div_mod_of
        (ASM58_RPM_FROM_REG (data.fan n) (ASM58_FANDIV_FROM_REG (data.fan_div n)))
        lim (data.fan_div n) ≤ 3) ∧
    (1 ≤ ASM58_FANDIV_FROM_REG (data.fan_div n) ∧ ASM58_FANDIV_FROM_REG (data.fan_div n) ≤ 8) ∧
    (¬ (data.fan n = 255 ∨ data.fan n = 0) →
      (data.fan n : Int) * ASM58_FANDIV_FROM_REG (data.fan_div n) ≠ 0 ∧
      (data.fan n : Int) * ASM58_FANDIV_FROM_REG (data.fan_div n) < 2 ^ 31) ∧
    (show_fan_body bus n client data).isSome = true := by
  have hlim := lim_of_lt (data.fan_div n) (by omega)
  have hshift : 1 ≤ ASM58_FANDIV_FROM_REG (data.fan_div n) ∧
      ASM58_FANDIV_FROM_REG (data.fan_div n) ≤ 8 := by
    rw [fandiv_from_reg_eq]
    generalize data.fan_div n = d at hd
    interval_cases d <;> exact ⟨by decide, by decide⟩
  refine ⟨by simp [asm58_fan_min_lim]; omega, ⟨_, hlim, ?_, ?_⟩, hshift, ?_, ?_⟩
  · rcases div_mod_of_cases
        (ASM58_RPM_FROM_REG (data.fan n) (ASM58_FANDIV_FROM_REG (data.fan_div n)))
        (asm58_fan_min_lim.getD (data.fan_div n) 0) (data.fan_div n) with h | h | h
    · rw [h]; omega
    · have := div_mod_of_neg_one _ _ _ h
      rw [h]; omega
    · rw [h]; omega
  · rcases div_mod_of_cases
        (ASM58_RPM_FROM_REG (data.fan n) (ASM58_FANDIV_FROM_REG (data.fan_div n)))
        (asm58_fan_min_lim.getD (data.fan_div n) 0) (data.fan_div n) with h | h | h
    · have := div_mod_of_one _ _ _ h
      rw [h]; omega
    · rw [h]; omega
    · rw [h]; omega
  · intro hne
    have hpos : 0 < (data.fan n : Int) := by omega
    have hlt : (data.fan n : Int) < 256 := by omega
    obtain ⟨hs1, hs8⟩ := hshift
    constructor
    · exact ne_of_gt (mul_pos hpos (by omega))
    · calc (data.fan n : Int) * ASM58_FANDIV_FROM_REG (data.fan_div n)
          ≤ 255 * 8 := mul_le_mul (by omega) hs8 (by omega) (by omega)
        _ < 2 ^ 31 := by decide
  · rcases show_fan_body_outcomes bus n client data hd with h | ⟨-, h⟩ | ⟨-, h⟩ <;>
      rw [h] <;> rfl

/-- Witness of C19: count 254 at exponent 2. -/
theorem show_fan_defined_witness :
    ((cached 254 2).fan 0 < 256 ∧ (cached 254 2).fan_div 0 ≤ 3) ∧
    (show_fan_body eio_bus 0 (new_client ()) (cached 254 2)).isSome = true ∧
    ASM58_FANDIV_FROM_REG ((cached 254 2).fan_div 0) ≤ 8 :=
  ⟨⟨by decide, by decide⟩,
    (show_fan_defined eio_bus 0 (new_client ()) (cached 254 2) (by decide) (by decide)).2.2.2.2,
    (show_fan_defined eio_bus 0 (new_client ()) (cached 254 2)
      (by decide) (by decide)).2.2.1.2⟩

/-- C20: a divisor transition touches only its own channel: on data with
`fan_div[n]` in `0..3` the part of `show_fan` after the refresh returns, and
the data it leaves have the same fan counts, temperatures, voltages and
`last_updated` and the same divisor on the other channel; either they are the
data before the call, or `valid` is cleared and `fan_div[n]` has changed by
exactly `+1` or `-1`. -/
theorem transition_frame {σ : Type} (bus : Bus σ) (n : Fin 2) (client : Client σ)
    (data : asm58_data) (hd : data.fan_div n ≤ 3) :
    ∃ rpm client1 data1,
      show_fan_body bus n client data = some (rpm, client1, data1) ∧
      data1.fan = data.fan ∧ data1.temp = data.temp ∧ data1.in_ = data.in_ ∧
      data1.last_updated = data.last_updated ∧
      (∀ m, m ≠ n → data1.fan_div m = data.fan_div m) ∧
      (data1 = data ∨
        (data1.valid = false ∧
          (data1.fan_div n = data.fan_div n + 1 ∨ data1.fan_div n + 1 = data.fan_div n))) := by
  have hother : ∀ (x : Nat) (m : Fin 2), m ≠ n → (stepped data n x).fan_div m = data.fan_div m := by
    intro x m hm
    simp [stepped, Function.update_noteq hm]
  rcases show_fan_body_outcomes bus n client data hd with h | ⟨-, h⟩ | ⟨hpos, h⟩
  · exact ⟨_, _, _, h, rfl, rfl, rfl, rfl, fun _ _ => rfl, Or.inl rfl⟩
  · refine ⟨_, _, _, h, rfl, rfl, rfl, rfl, hother _, Or.inr ⟨rfl, Or.inl ?_⟩⟩
    rw [stepped_fan_div_same]
  · refine ⟨_, _, _, h, rfl, rfl, rfl, rfl, hother _, Or.inr ⟨rfl, Or.inr ?_⟩⟩
    rw [stepped_fan_div_same]
    omega

/-- Witness of C20: channel 1 at exponent 1 with count 20 (33750 RPM) steps
down; the call returns and leaves the fan counts as they were. -/
theorem transition_frame_witness :
    (cached 20 1).fan_div 1 ≤ 3 ∧
    ∃ rpm client1 data1,
      show_fan_body eio_bus 1 (new_client ()) (cached 20 1) = some (rpm, client1, data1) ∧
      data1.fan = (cached 20 1).fan ∧
      (∀ m, m ≠ 1 → data1.fan_div m = (cached 20 1).fan_div m) := by
  obtain ⟨rpm, client1, data1, h, hfan, -, -, -, hdiv, -⟩ :=
    transition_frame eio_bus 1 (new_client ()) (cached 20 1) (by decide)
  exact ⟨by decide, rpm, client1, data1, h, hfan, hdiv⟩

end Asm58
